import Mathlib

/-!
Shallow embedding of the expedition state-synchronization engine
(zone `Expedition` entity, zone-local expedition cache, and the
cross-zone replication message handler) of the supplied server source.

Conventions of the embedding:
* Database writes, log output and packets queued to connected game
  clients are side effects outside the replicated in-memory state and
  are dropped; database *reads* are supplied by explicit environment
  records so the definitions stay executable.
* C++ `uint32_t` values are modelled as `Nat`; all arithmetic used by
  the embedded code (counting, comparisons, expiry stamps) stays far
  below 2^32, so no wrap-around modelling is required.
* `std::string` is modelled as `String`; `strcasecmp` equality is
  modelled over ASCII letter case exactly as the C library defines it
  for the C locale.
* the `m_lockouts` map (event name, unique key, to timer) is modelled
  as an association list whose assignment operation overwrites the
  entry for an existing key in place and appends a fresh key.
-/

/-- Member status, `ExpeditionMemberStatus` in the source. -/
inductive ExpeditionMemberStatus where
  | offline
  | online
  | inDynamicZone
deriving DecidableEq

/-- `ExpeditionMember`: roster entry `{char_id, name, status}`. -/
structure ExpeditionMember where
  charId : Nat
  name : String
  status : ExpeditionMemberStatus
deriving DecidableEq

/-- Reserved event name of the replay-category timer (external constant
`DZ_REPLAY_TIMER_NAME`; its concrete spelling is an opaque token). -/
def DZ_REPLAY_TIMER_NAME : String := "Replay Timer"

/-- `ExpeditionLockoutTimer`: scoped to an owning expedition uuid and an
event name, carrying an absolute expire time and a duration. -/
structure ExpeditionLockoutTimer where
  uuid : String
  expeditionName : String
  eventName : String
  expireTime : Nat
  duration : Nat
deriving DecidableEq

/-- Modelled from the spec: `ExpeditionLockoutTimer::Reset` (the timer
class body is outside the supplied sources) recomputes a fresh expiry
from the duration: expire_time := now + duration. -/
def ExpeditionLockoutTimer.ResetAt (l : ExpeditionLockoutTimer) (now : Nat) :
    ExpeditionLockoutTimer :=
  { l with expireTime := now + l.duration }

/-- Spec: a timer is expired when `expire_time <= now`. -/
def ExpeditionLockoutTimer.IsExpiredAt (l : ExpeditionLockoutTimer) (now : Nat) : Bool :=
  l.expireTime ≤ now

/-- `IsReplayTimer`: the replay-category timer is distinguished by name. -/
def ExpeditionLockoutTimer.IsReplayTimer (l : ExpeditionLockoutTimer) : Bool :=
  l.eventName == DZ_REPLAY_TIMER_NAME

/-- `IsFromExpedition`: the timer belongs to the given correlation token. -/
def ExpeditionLockoutTimer.IsFromExpedition (l : ExpeditionLockoutTimer) (uuid : String) : Bool :=
  l.uuid == uuid

/-- A saved navigation waypoint (`DynamicZoneLocation`). Coordinates are
opaque to every embedded algorithm (stored, never computed with), so the
float fields are carried as integers. -/
structure DynamicZoneLocation where
  zoneId : Nat
  x : Int
  y : Int
  z : Int
  heading : Int
deriving DecidableEq

/-- Instance binding (`DynamicZone` as used by the expedition code):
instance id (0 = unbound), zone id, waypoints, and duration. -/

structure DynamicZone where
  zoneId : Nat
  instanceId : Nat
  compass : DynamicZoneLocation
  safeReturn : DynamicZoneLocation
  zoneIn : DynamicZoneLocation
  durationSeconds : Nat
deriving DecidableEq

/-- `DynamicZone{instance_id}` constructor used by the cache loader. -/
def DynamicZone.ofInstance (instance_id : Nat) : DynamicZone :=
  { zoneId := 0, instanceId := instance_id,
    compass := ⟨0, 0, 0, 0, 0⟩, safeReturn := ⟨0, 0, 0, 0, 0⟩, zoneIn := ⟨0, 0, 0, 0, 0⟩,
    durationSeconds := 0 }

/-- `DynamicZone::IsInstanceID` as used by the online-members reply
handler: whether the given instance id is this binding's instance. -/
def DynamicZone.IsInstanceID (dz : DynamicZone) (instance_id : Nat) : Bool :=
  dz.instanceId == instance_id

/-- The `Expedition` aggregate. `leader` is an `ExpeditionMember` whose
status field is never read by any embedded operation. -/
structure Expedition where
  id : Nat
  uuid : String
  dynamiczone : DynamicZone
  expeditionName : String
  leader : ExpeditionMember
  minPlayers : Nat
  maxPlayers : Nat
  members : List ExpeditionMember
  memberIdHistory : List Nat
  lockouts : List (String × ExpeditionLockoutTimer)
  isLocked : Bool
  addReplayOnJoin : Bool
deriving DecidableEq

/-- ASCII lower-casing of one character, as C `tolower` in the C locale. -/
def asciiLower (c : Char) : Char :=
  if 65 ≤ c.toNat && c.toNat ≤ 90 then Char.ofNat (c.toNat + 32) else c

/-- `strcasecmp(a, b) == 0`: equality up to ASCII letter case. -/
def caseEq (a b : String) : Bool :=
  a.data.map asciiLower == b.data.map asciiLower

/-- `Expedition::HasMember(uint32_t)`: roster lookup by character id. -/
def Expedition.HasMemberId (e : Expedition) (character_id : Nat) : Bool :=
  e.members.any (fun m => m.charId == character_id)

/-- `Expedition::HasMember(const std::string&)`: roster lookup by name,
case-insensitively via `strcasecmp`. -/
def Expedition.HasMemberName (e : Expedition) (character_name : String) : Bool :=
  e.members.any (fun m => caseEq m.name character_name)

/-- The value-initialized `ExpeditionMember` returned by `GetMemberData`
when no roster entry matches (char_id 0, empty name; the status value is
never inspected by callers). -/
def emptyMemberData : ExpeditionMember := ⟨0, "", ExpeditionMemberStatus.offline⟩

/-- `Expedition::GetMemberData(uint32_t)`: first roster entry with the
given id, or the empty member data. -/
def Expedition.GetMemberDataById (e : Expedition) (character_id : Nat) : ExpeditionMember :=
  (e.members.find? (fun m => m.charId == character_id)).getD emptyMemberData

/-- `Expedition::GetMemberData(const std::string&)`: first roster entry
whose name matches case-insensitively, or the empty member data. -/
def Expedition.GetMemberDataByName (e : Expedition) (character_name : String) : ExpeditionMember :=
  (e.members.find? (fun m => caseEq m.name character_name)).getD emptyMemberData

/-- `Expedition::GetMemberCount` (roster size). -/
def Expedition.GetMemberCount (e : Expedition) : Nat :=
  e.members.length

/-- `Expedition::HasLockout`. -/
def Expedition.HasLockout (e : Expedition) (event_name : String) : Bool :=
  e.lockouts.any (fun p => p.1 == event_name)

/-- `Expedition::AddInternalMember`: when the character is a current
member and not already on the roster (by id), append it; always record
the id in the member history set. -/
def Expedition.AddInternalMember (e : Expedition) (char_name : String) (character_id : Nat)
    (status : ExpeditionMemberStatus) (is_current_member : Bool) : Expedition :=
  let members :=
    if is_current_member && !(e.members.any (fun m => m.charId == character_id)) then
      e.members ++ [⟨character_id, char_name, status⟩]
    else
      e.members
  { e with
    members := members
    memberIdHistory :=
      if e.memberIdHistory.contains character_id then e.memberIdHistory
      else e.memberIdHistory ++ [character_id] }

/-- `Expedition::ProcessMemberAdded` (cache mutation part): adds the
member via `AddInternalMember` with Online status. -/
def Expedition.ProcessMemberAdded (e : Expedition) (char_name : String) (added_char_id : Nat) :
    Expedition :=
  e.AddInternalMember char_name added_char_id ExpeditionMemberStatus.online true

/-- `Expedition::ProcessMemberRemoved` (cache mutation part): erase
every roster entry whose stored name equals the removed name exactly;
no-op on an empty roster. Member history is not touched. -/
def Expedition.ProcessMemberRemoved (e : Expedition) (removed_char_name : String)
    (_removed_char_id : Nat) : Expedition :=
  if e.members.isEmpty then e
  else { e with members := e.members.filter (fun m => m.name != removed_char_name) }

/-- `Expedition::ProcessLeaderChanged` (cache mutation part): overwrite
the leader's id and display name. -/
def Expedition.ProcessLeaderChanged (e : Expedition) (new_leader_id : Nat)
    (new_leader_name : String) : Expedition :=
  { e with leader := { e.leader with charId := new_leader_id, name := new_leader_name } }

/-- `Expedition::SetNewLeader`: persists then applies the leader change
(the persistence write is a dropped side effect). -/
def Expedition.SetNewLeader (e : Expedition) (new_leader_id : Nat) (new_leader_name : String) :
    Expedition :=
  e.ProcessLeaderChanged new_leader_id new_leader_name

/-- `Expedition::ChooseNewLeader`: promote the first roster entry whose
character id differs from the current leader's; report whether a
replacement was found (the leader is untouched when none is). -/
def Expedition.ChooseNewLeader (e : Expedition) : Expedition × Bool :=
  match e.members.find? (fun m => m.charId != e.leader.charId) with
  | some m => (e.SetNewLeader m.charId m.name, true)
  | none => (e, false)

/-- `Expedition::AddMember`: reject when the id is already rostered,
otherwise add and broadcast (broadcast dropped). -/
def Expedition.AddMember (e : Expedition) (add_char_name : String) (add_char_id : Nat) :
    Expedition × Bool :=
  if e.HasMemberId add_char_id then (e, false)
  else (e.ProcessMemberAdded add_char_name add_char_id, true)

/-- `Expedition::RemoveMember`: look the member up by (case-insensitive)
name, remove it, and re-elect a leader when the removed character was
the leader. Returns whether a member was removed. -/
def Expedition.RemoveMember (e : Expedition) (remove_char_name : String) : Expedition × Bool :=
  let member := e.GetMemberDataByName remove_char_name
  if member.charId == 0 || member.name == "" then (e, false)
  else
    let e1 := e.ProcessMemberRemoved member.name member.charId
    let e2 := if member.charId == e1.leader.charId then (e1.ChooseNewLeader).1 else e1
    (e2, true)

/-- `Expedition::SwapMember`: atomically remove the named member and add
the accepting client, re-electing a leader when the removed member led a
still non-empty roster. The added client is given by name and id. -/
def Expedition.SwapMember (e : Expedition) (add_char_name : String) (add_char_id : Nat)
    (remove_char_name : String) : Expedition :=
  if remove_char_name == "" then e
  else
    let member := e.GetMemberDataByName remove_char_name
    if member.charId == 0 || member.name == "" then e
    else
      let e1 := e.ProcessMemberRemoved member.name member.charId
      let e2 := e1.ProcessMemberAdded add_char_name add_char_id
      if !e2.members.isEmpty && member.charId == e2.leader.charId then (e2.ChooseNewLeader).1
      else e2

/-- `Expedition::RemoveAllMembers` (cache mutation part). -/
def Expedition.RemoveAllMembers (e : Expedition) : Expedition :=
  { e with members := [] }

/-- `Expedition::UpdateMemberStatus`: patch the status of the roster
entry with the given id; no-op when the id is not rostered. -/
def Expedition.UpdateMemberStatus (e : Expedition) (update_member_id : Nat)
    (status : ExpeditionMemberStatus) : Expedition :=
  let member_data := e.GetMemberDataById update_member_id
  if member_data.charId == 0 || member_data.name == "" then e
  else
    { e with
      members := e.members.map (fun m =>
        if m.charId == update_member_id then { m with status := status } else m) }

/-- Assignment into the lockout map: `m_lockouts[event] = lockout`
overwrites the entry for an existing key, otherwise inserts. -/
def lockoutsAssign (ls : List (String × ExpeditionLockoutTimer)) (k : String)
    (v : ExpeditionLockoutTimer) : List (String × ExpeditionLockoutTimer) :=
  if ls.any (fun p => p.1 == k) then
    ls.map (fun p => if p.1 == k then (k, v) else p)
  else
    ls ++ [(k, v)]

/-- `m_lockouts.erase(event)`. -/
def lockoutsErase (ls : List (String × ExpeditionLockoutTimer)) (k : String) :
    List (String × ExpeditionLockoutTimer) :=
  ls.filter (fun p => p.1 != k)

/-- `Expedition::ProcessLockoutUpdate` (cache mutation part): add or
remove the in-memory lockout entry keyed by its event name. Per-client
timer propagation and the in-instance non-member grant touch client
state and the database only. -/
def Expedition.ProcessLockoutUpdate (e : Expedition) (lockout : ExpeditionLockoutTimer)
    (remove : Bool) : Expedition :=
  if !remove then { e with lockouts := lockoutsAssign e.lockouts lockout.eventName lockout }
  else { e with lockouts := lockoutsErase e.lockouts lockout.eventName }

/-- `Expedition::AddLockout`: build a timer for this expedition's token
stamped `now + seconds`, persist it (dropped), and apply it in memory.
`now` is the wall-clock instant of the call. -/
def Expedition.AddLockout (e : Expedition) (now : Nat) (event_name : String) (seconds : Nat) :
    Expedition :=
  let lockout : ExpeditionLockoutTimer :=
    ExpeditionLockoutTimer.ResetAt ⟨e.uuid, e.expeditionName, event_name, 0, seconds⟩ now
  e.ProcessLockoutUpdate lockout false

/-- `Expedition::RemoveLockout`. -/
def Expedition.RemoveLockout (e : Expedition) (event_name : String) : Expedition :=
  e.ProcessLockoutUpdate ⟨e.uuid, e.expeditionName, event_name, 0, 0⟩ true

/-- `Expedition::SetLocked` (cache mutation part). -/
def Expedition.SetLocked (e : Expedition) (lock_expedition : Bool) : Expedition :=
  { e with isLocked := lock_expedition }

/-- `Expedition::SetReplayLockoutOnMemberJoin` (cache mutation part). -/
def Expedition.SetReplayLockoutOnMemberJoin (e : Expedition) (add_on_join : Bool) : Expedition :=
  { e with addReplayOnJoin := add_on_join }

/-- `Expedition::SetDzCompass` (cache mutation part). -/
def Expedition.SetDzCompass (e : Expedition) (zone_id : Nat) (x y z : Int) : Expedition :=
  { e with dynamiczone := { e.dynamiczone with compass := ⟨zone_id, x, y, z, 0⟩ } }

/-- `Expedition::SetDzSafeReturn` (cache mutation part). -/
def Expedition.SetDzSafeReturn (e : Expedition) (zone_id : Nat) (x y z heading : Int) :
    Expedition :=
  { e with dynamiczone := { e.dynamiczone with safeReturn := ⟨zone_id, x, y, z, heading⟩ } }

/-- `Expedition::SetDzZoneInLocation` (cache mutation part). -/
def Expedition.SetDzZoneInLocation (e : Expedition) (x y z heading : Int) : Expedition :=
  { e with dynamiczone := { e.dynamiczone with zoneIn := ⟨0, x, y, z, heading⟩ } }

/-- `DynamicZone::SetDuration` as invoked by the duration message. -/
def Expedition.SetDzDuration (e : Expedition) (new_duration_seconds : Nat) : Expedition :=
  { e with dynamiczone := { e.dynamiczone with durationSeconds := new_duration_seconds } }

/-- The state of a game client relevant to conflict validation: its
character identity, current expedition affiliation (0 = none), pending
invite (0 = none), and personal lockout records. In the source a null
client pointer short-circuits validation; embedded clients always
exist, so the accumulated message list faithfully reflects the
`has_conflict` flag. -/
structure ClientState where
  charId : Nat
  name : String
  expeditionId : Nat
  pendingInviteId : Nat
  lockouts : List ExpeditionLockoutTimer
deriving DecidableEq

/-- `Client::GetExpeditionLockout(expedition_name, event_name)`: the
client's personal lockout for that expedition name and event, if any
(client lockouts are keyed by expedition name and event name). -/
def ClientState.GetExpeditionLockout (c : ClientState) (expedition_name event_name : String) :
    Option ExpeditionLockoutTimer :=
  c.lockouts.find? (fun l => l.expeditionName == expedition_name && l.eventName == event_name)

/-- `Client::GetExpeditionLockouts(expedition_name)`. -/
def ClientState.GetExpeditionLockouts (c : ClientState) (expedition_name : String) :
    List ExpeditionLockoutTimer :=
  c.lockouts.filter (fun l => l.expeditionName == expedition_name)

/-- `Client::HasExpeditionLockout`. -/
def ClientState.HasExpeditionLockout (c : ClientState) (expedition_name event_name : String) :
    Bool :=
  (c.GetExpeditionLockout expedition_name event_name).isSome

/-- One conflict reported by `ProcessAddConflicts`; each variant is the
distinct leader chat message the corresponding check emits. -/
inductive ConflictReason where
  | leaveZoneFirst
  | alreadyPart
  | alreadyAssigned
  | replayTimer
  | eventTimer (event_name : String)
  | exceedMax
  | pendingThis
  | pendingOther
deriving DecidableEq

/-- `Expedition::ProcessAddConflicts`: run every applicable check and
accumulate the reported conflicts in source order. `in_dz_instance` is
`m_dynamiczone.IsCurrentZoneDzInstance()` evaluated in the requesting
zone. The operation is rejected iff the returned list is non-empty. -/
def Expedition.ProcessAddConflicts (e : Expedition) (in_dz_instance : Bool)
    (add_client : ClientState) (swapping : Bool) : List ConflictReason :=
  let r1 : List ConflictReason :=
    if in_dz_instance then [ConflictReason.leaveZoneFirst] else []
  let r2 : List ConflictReason :=
    if add_client.expeditionId != 0 then
      [if add_client.expeditionId == e.id then ConflictReason.alreadyPart
       else ConflictReason.alreadyAssigned]
    else []
  let was_member := e.memberIdHistory.contains add_client.charId
  let r3 : List ConflictReason :=
    if !was_member &&
        (add_client.GetExpeditionLockout e.expeditionName DZ_REPLAY_TIMER_NAME).isSome then
      [ConflictReason.replayTimer]
    else []
  let r4 : List ConflictReason :=
    (add_client.GetExpeditionLockouts e.expeditionName).filterMap (fun l =>
      if !l.IsReplayTimer && !(e.lockouts.any (fun p => p.1 == l.eventName)) then
        some (ConflictReason.eventTimer l.eventName)
      else none)
  let r5 : List ConflictReason :=
    if !swapping && e.GetMemberCount ≥ e.maxPlayers then [ConflictReason.exceedMax] else []
  let r6 : List ConflictReason :=
    if add_client.pendingInviteId != 0 then
      [if add_client.pendingInviteId == e.id then ConflictReason.pendingThis
       else ConflictReason.pendingOther]
    else []
  r1 ++ r2 ++ r3 ++ r4 ++ r5 ++ r6

/-- The `has_conflict` flag computed by `ProcessAddConflicts`. -/
def Expedition.HasAddConflicts (e : Expedition) (in_dz_instance : Bool)
    (add_client : ClientState) (swapping : Bool) : Bool :=
  !(e.ProcessAddConflicts in_dz_instance add_client swapping).isEmpty

/-- `Expedition::DzInviteResponse` (cache mutation part): on accept,
re-validate (lock state, conflict accumulation, swap-target still
rostered); on success add or swap the member and, inside the bound
instance, patch the member status. The returned flag is the
`has_conflicts` rejection outcome (false also for a decline). Pending
lockout inserts mutate only client state and the database. -/

def Expedition.DzInviteResponse (e : Expedition) (in_dz_instance : Bool)
    (add_client : ClientState) (accepted : Bool) (swap_remove_name : String) :
    Expedition × Bool :=
  if !accepted then (e, false)
  else
    let was_swap_invite := swap_remove_name != ""
    let has_conflicts0 :=
      if e.isLocked then true
      else e.HasAddConflicts in_dz_instance add_client was_swap_invite
    let has_conflicts :=
      has_conflicts0 || (was_swap_invite && !(e.HasMemberName swap_remove_name))
    if has_conflicts then (e, true)
    else
      let e1 :=
        if was_swap_invite then e.SwapMember add_client.name add_client.charId swap_remove_name
        else (e.AddMember add_client.name add_client.charId).1
      let e2 :=
        if in_dz_instance then
          e1.UpdateMemberStatus add_client.charId ExpeditionMemberStatus.inDynamicZone
        else e1
      (e2, false)

/-- `Expedition::DzMakeLeader` (cache mutation part, leader transfer to
a named current member): reject unless the name resolves to a roster
member; the validated transfer sets the new leader. -/
def Expedition.DzMakeLeaderLocal (e : Expedition) (new_leader_name : String) : Expedition :=
  let new_leader_data := e.GetMemberDataByName new_leader_name
  if new_leader_data.charId == 0 then e
  else e.SetNewLeader new_leader_data.charId new_leader_data.name

/-- Per-zone state: the zone's own identity and its expedition cache
(`zone->expedition_cache`, keyed by expedition id). -/
structure ZoneState where
  zoneId : Nat
  instanceId : Nat
  cache : List (Nat × Expedition)
deriving DecidableEq

/-- `Zone::IsZone(zone_id, instance_id)`. -/
def ZoneState.IsZone (z : ZoneState) (zone_id instance_id : Nat) : Bool :=
  z.zoneId == zone_id && z.instanceId == instance_id

/-- `Expedition::FindCachedExpeditionByID`: id 0 and uncached ids both
resolve to nothing. -/
def ZoneState.findCached (z : ZoneState) (expedition_id : Nat) : Option Expedition :=
  if expedition_id == 0 then none
  else (z.cache.find? (fun p => p.1 == expedition_id)).map Prod.snd

/-- `expedition_cache.emplace`: insert only when the key is absent. -/
def cacheEmplace (c : List (Nat × Expedition)) (expedition_id : Nat) (e : Expedition) :
    List (Nat × Expedition) :=
  if c.any (fun p => p.1 == expedition_id) then c else c ++ [(expedition_id, e)]

/-- Replace the (first) cache entry with the given key. -/
def cacheSet (c : List (Nat × Expedition)) (expedition_id : Nat) (e : Expedition) :
    List (Nat × Expedition) :=
  match c with
  | [] => []
  | p :: rest =>
    if p.1 == expedition_id then (expedition_id, e) :: rest
    else p :: cacheSet rest expedition_id e

/-- Apply an in-place mutation to the cached expedition with the given
id, as the handler's find-then-mutate pattern does; no-op when the id is
not cached. -/
def ZoneState.applyToCached (z : ZoneState) (expedition_id : Nat)
    (f : Expedition → Expedition) : ZoneState :=
  match z.findCached expedition_id with
  | some e => { z with cache := cacheSet z.cache expedition_id (f e) }
  | none => z

/-- `zone->expedition_cache.erase(id)`. -/
def ZoneState.eraseCached (z : ZoneState) (expedition_id : Nat) : ZoneState :=
  { z with cache := z.cache.filter (fun p => p.1 != expedition_id) }

/-- One flattened result row of the bulk expedition load
(`LoadExpeditionColumns`): expedition columns followed by one member
row. A zero instance id models the nullable foreign key. -/
structure DbRow where
  id : Nat
  uuid : String
  expeditionName : String
  leaderId : Nat
  leaderName : String
  minPlayers : Nat
  maxPlayers : Nat
  addReplayOnJoin : Bool
  isLocked : Bool
  instanceId : Nat
  memberId : Nat
  memberName : String
  isCurrentMember : Bool
deriving DecidableEq

/-- The fresh `Expedition` constructed from a row's expedition columns
by `CacheExpeditions` (empty roster; members arrive row by row). -/
def rowExpedition (row : DbRow) : Expedition :=
  { id := row.id
    uuid := row.uuid
    dynamiczone := DynamicZone.ofInstance row.instanceId
    expeditionName := row.expeditionName
    leader := ⟨row.leaderId, row.leaderName, ExpeditionMemberStatus.offline⟩
    minPlayers := row.minPlayers
    maxPlayers := row.maxPlayers
    members := []
    memberIdHistory := []
    lockouts := []
    isLocked := row.isLocked
    addReplayOnJoin := row.addReplayOnJoin }

/-- Environment supplying every database read and client lookup the
message handler performs. -/
structure WorldEnv where
  loadRows : Nat → List DbRow
  dzByInstance : Nat → Option DynamicZone
  lockoutsById : Nat → Option (List (String × ExpeditionLockoutTimer))
  clientByName : String → Option (Nat × String)

/-- Row-grouping pass of `Expedition::CacheExpeditions`: on each row
whose expedition id differs from the previous row's, construct and
emplace a fresh expedition; then append the row's member to the cached
expedition of that id. -/
def cacheExpeditionsRows (z : ZoneState) (last_id : Nat) : List DbRow → ZoneState
  | [] => z
  | row :: rest =>
    let z1 :=
      if row.id != last_id then { z with cache := cacheEmplace z.cache row.id (rowExpedition row) }
      else z
    let z2 := z1.applyToCached row.id (fun e =>
      e.AddInternalMember row.memberName row.memberId ExpeditionMemberStatus.offline
        row.isCurrentMember)
    cacheExpeditionsRows z2 row.id rest

/-- The expedition ids collected in row order (first row of each group),
used for the batched dynamic-zone and lockout patches. -/
def groupFirstIds (last_id : Nat) : List DbRow → List Nat
  | [] => []
  | row :: rest =>
    if row.id != last_id then row.id :: groupFirstIds row.id rest
    else groupFirstIds row.id rest

/-- `Expedition::CacheExpeditions`: parse the rows into cached
expeditions, then patch each newly seen expedition with its bulk-loaded
dynamic zone (keyed by instance id) and lockout set (keyed by
expedition id). The batched online-status request is asynchronous and
changes no state here. -/
def cacheExpeditions (env : WorldEnv) (z : ZoneState) (rows : List DbRow) : ZoneState :=
  let z1 := cacheExpeditionsRows z 0 rows
  (groupFirstIds 0 rows).foldl (fun z id =>
    z.applyToCached id (fun e =>
      let e1 :=
        match env.dzByInstance e.dynamiczone.instanceId with
        | some dz => { e with dynamiczone := dz }
        | none => e
      match env.lockoutsById e1.id with
      | some ls => { e1 with lockouts := ls }
      | none => e1)) z1

/-- `Expedition::CacheFromDatabase`: load one expedition's rows and run
them through `CacheExpeditions` (a failed load contributes no rows). -/
def cacheFromDatabase (env : WorldEnv) (z : ZoneState) (expedition_id : Nat) : ZoneState :=
  cacheExpeditions env z (env.loadRows expedition_id)

/-- One entry of the bulk online-members reply. -/
structure OnlineEntry where
  expeditionId : Nat
  characterId : Nat
  characterZoneId : Nat
  characterInstanceId : Nat
  characterOnline : Bool
deriving DecidableEq

/-- The replicated server messages dispatched by
`Expedition::HandleWorldMessage`, one variant per operation code, with
exactly the payload fields of the corresponding wire struct. -/
inductive ServerMsg where
  | create (expedition_id sender_zone_id sender_instance_id : Nat)
  | deleted (expedition_id sender_zone_id sender_instance_id : Nat)
  | membersRemoved (expedition_id sender_zone_id sender_instance_id : Nat)
  | leaderChanged (expedition_id sender_zone_id sender_instance_id char_id : Nat)
      (char_name : String)
  | lockout (expedition_id : Nat) (event_name : String) (expire_time duration : Nat)
      (remove : Bool) (sender_zone_id sender_instance_id : Nat)
  | memberChange (expedition_id sender_zone_id sender_instance_id char_id : Nat)
      (char_name : String) (removed : Bool)
  | memberSwap (expedition_id sender_zone_id sender_instance_id add_char_id : Nat)
      (add_char_name : String) (remove_char_id : Nat) (remove_char_name : String)
  | memberStatus (expedition_id sender_zone_id sender_instance_id char_id : Nat)
      (status : ExpeditionMemberStatus)
  | lockState (expedition_id sender_zone_id sender_instance_id : Nat) (enabled : Bool)
  | replayOnJoin (expedition_id sender_zone_id sender_instance_id : Nat) (enabled : Bool)
  | getOnlineMembers (sender_zone_id sender_instance_id : Nat) (entries : List OnlineEntry)
  | dzAddPlayer (expedition_id : Nat) (is_char_online : Bool)
      (requester_name target_name remove_name : String)
  | dzMakeLeader (expedition_id : Nat) (is_char_online : Bool)
      (requester_name target_name : String)
  | dzCompass (owner_id dz_zone_id dz_instance_id sender_zone_id sender_instance_id
      zone_id : Nat) (x y z heading : Int)
  | dzSafeReturn (owner_id dz_zone_id dz_instance_id sender_zone_id sender_instance_id
      zone_id : Nat) (x y z heading : Int)
  | dzZoneIn (owner_id dz_zone_id dz_instance_id sender_zone_id sender_instance_id
      zone_id : Nat) (x y z heading : Int)
  | removeCharLockouts (character_name expedition_name event_name : String)
  | dzDuration (expedition_id new_duration_seconds : Nat)
deriving DecidableEq

/-- The sender identity (zone id, instance id) carried by the message's
wire struct, when the struct has the sender fields. -/
def ServerMsg.senderIdentity : ServerMsg → Option (Nat × Nat)
  | .create _ sz si => some (sz, si)
  | .deleted _ sz si => some (sz, si)
  | .membersRemoved _ sz si => some (sz, si)
  | .leaderChanged _ sz si _ _ => some (sz, si)
  | .lockout _ _ _ _ _ sz si => some (sz, si)
  | .memberChange _ sz si _ _ _ => some (sz, si)
  | .memberSwap _ sz si _ _ _ _ => some (sz, si)
  | .memberStatus _ sz si _ _ => some (sz, si)
  | .lockState _ sz si _ => some (sz, si)
  | .replayOnJoin _ sz si _ => some (sz, si)
  | .getOnlineMembers sz si _ => some (sz, si)
  | .dzCompass _ _ _ sz si _ _ _ _ _ => some (sz, si)
  | .dzSafeReturn _ _ _ sz si _ _ _ _ _ => some (sz, si)
  | .dzZoneIn _ _ _ sz si _ _ _ _ _ => some (sz, si)
  | .dzAddPlayer _ _ _ _ _ => none
  | .dzMakeLeader _ _ _ _ => none
  | .removeCharLockouts _ _ _ => none
  | .dzDuration _ _ => none

/-- Whether the message is the coordinator's deletion notice. -/
def ServerMsg.isDeleted : ServerMsg → Bool
  | .deleted _ _ _ => true
  | _ => false

/-- Whether the message is the bulk online-members reply. -/
def ServerMsg.isGetOnlineMembers : ServerMsg → Bool
  | .getOnlineMembers _ _ _ => true
  | _ => false

/-- `Expedition::HandleWorldMessage` (cache mutation part): dispatch on
the operation code and apply the replicated state transition to the
zone cache. Packets queued to connected clients and leader chat
messages are dropped side effects; the cross-zone invite continuation
(`dzAddPlayer`) and character-lockout removal mutate only client state. -/
def handleWorldMessage (env : WorldEnv) (z : ZoneState) : ServerMsg → ZoneState
  | .create expedition_id sz si =>
    if !(z.IsZone sz si) then cacheFromDatabase env z expedition_id else z
  | .deleted expedition_id _ _ =>
    match z.findCached expedition_id with
    | some _ => z.eraseCached expedition_id
    | none => z
  | .membersRemoved expedition_id sz si =>
    if !(z.IsZone sz si) then z.applyToCached expedition_id Expedition.RemoveAllMembers else z
  | .leaderChanged expedition_id sz si char_id char_name =>
    if !(z.IsZone sz si) then
      z.applyToCached expedition_id (fun e => e.ProcessLeaderChanged char_id char_name)
    else z
  | .lockout expedition_id event_name expire_time duration remove sz si =>
    if !(z.IsZone sz si) then
      z.applyToCached expedition_id (fun e =>
        e.ProcessLockoutUpdate ⟨e.uuid, e.expeditionName, event_name, expire_time, duration⟩
          remove)
    else z
  | .memberChange expedition_id sz si char_id char_name removed =>
    if !(z.IsZone sz si) then
      z.applyToCached expedition_id (fun e =>
        if removed then e.ProcessMemberRemoved char_name char_id
        else e.ProcessMemberAdded char_name char_id)
    else z
  | .memberSwap expedition_id sz si add_char_id add_char_name remove_char_id
      remove_char_name =>
    if !(z.IsZone sz si) then
      z.applyToCached expedition_id (fun e =>
        (e.ProcessMemberRemoved remove_char_name remove_char_id).ProcessMemberAdded
          add_char_name add_char_id)
    else z
  | .memberStatus expedition_id sz si char_id status =>
    if !(z.IsZone sz si) then
      z.applyToCached expedition_id (fun e => e.UpdateMemberStatus char_id status)
    else z
  | .lockState expedition_id sz si enabled =>
    if !(z.IsZone sz si) then z.applyToCached expedition_id (fun e => e.SetLocked enabled)
    else z
  | .replayOnJoin expedition_id sz si enabled =>
    if !(z.IsZone sz si) then
      z.applyToCached expedition_id (fun e => e.SetReplayLockoutOnMemberJoin enabled)
    else z
  | .getOnlineMembers _ _ entries =>
    entries.foldl (fun z entry =>
      z.applyToCached entry.expeditionId (fun e =>
        let status :=
          if entry.characterOnline then
            if e.dynamiczone.IsInstanceID entry.characterInstanceId then
              ExpeditionMemberStatus.inDynamicZone
            else ExpeditionMemberStatus.online
          else ExpeditionMemberStatus.offline
        e.UpdateMemberStatus entry.characterId status)) z
  | .dzAddPlayer _ _ _ _ _ => z
  | .dzMakeLeader expedition_id _ _ target_name =>
    match z.findCached expedition_id with
    | some e =>
      match env.clientByName target_name with
      | some (new_leader_id, new_leader_name) =>
        { z with
          cache := cacheSet z.cache expedition_id
            (e.SetNewLeader new_leader_id new_leader_name) }
      | none => z
    | none => z
  | .dzCompass owner_id _ _ sz si zone_id x y zc _ =>
    if !(z.IsZone sz si) then
      z.applyToCached owner_id (fun e => e.SetDzCompass zone_id x y zc)
    else z
  | .dzSafeReturn owner_id _ _ sz si zone_id x y zc heading =>
    if !(z.IsZone sz si) then
      z.applyToCached owner_id (fun e => e.SetDzSafeReturn zone_id x y zc heading)
    else z
  | .dzZoneIn owner_id _ _ sz si _ x y zc heading =>
    if !(z.IsZone sz si) then
      z.applyToCached owner_id (fun e => e.SetDzZoneInLocation x y zc heading)
    else z
  | .removeCharLockouts _ _ _ => z
  | .dzDuration expedition_id new_duration_seconds =>
    z.applyToCached expedition_id (fun e => e.SetDzDuration new_duration_seconds)

/-- The validated creation request descriptor (`ExpeditionRequest`):
name, leader, bounds, initial roster and initial lockout set, parsed
and checked by the external request validator. -/
structure ExpeditionRequest where
  expeditionName : String
  leaderId : Nat
  leaderName : String
  minPlayers : Nat
  maxPlayers : Nat
  members : List ExpeditionMember
  lockouts : List (String × ExpeditionLockoutTimer)
deriving DecidableEq

/-- The inputs and collaborator outcomes of one `Expedition::TryCreate`
call: whether the requester exists, the validator's verdict, the
caller's dynamic zone, the instance id produced by `CreateInstance`
(0 = allocation failed), the id returned by the expedition row insert
(0 = persistence failed), and the generated uuid. -/
structure CreateContext where
  requesterPresent : Bool
  validateOk : Bool
  dynamiczone : DynamicZone
  createdInstanceId : Nat
  insertedId : Nat
  uuid : String
  request : ExpeditionRequest

/-- The dynamic zone after the idempotent allocation step: a zero
instance id triggers `CreateInstance`, a nonzero one is reused. -/

def createEffectiveDz (ctx : CreateContext) : DynamicZone :=
  if ctx.dynamiczone.instanceId == 0 then
    { ctx.dynamiczone with instanceId := ctx.createdInstanceId }
  else ctx.dynamiczone

/-- Instance id after the allocation step. -/
def effectiveInstanceId (ctx : CreateContext) : Nat :=
  (createEffectiveDz ctx).instanceId

/-- `SaveMembers`: the member-id history set built by inserting every
initial member's id. -/
def histFromMembers (ms : List ExpeditionMember) : List Nat :=
  ms.foldl (fun h m => if h.contains m.charId then h else h ++ [m.charId]) []

/-- The `Expedition` built by a successful `TryCreate` after
`SaveMembers` and `SaveLockouts` (lock and replay-on-join flags start
cleared; the leader's status field is never read). -/
def createdExpedition (ctx : CreateContext) : Expedition :=
  { id := ctx.insertedId
    uuid := ctx.uuid
    dynamiczone := createEffectiveDz ctx
    expeditionName := ctx.request.expeditionName
    leader := ⟨ctx.request.leaderId, ctx.request.leaderName, ExpeditionMemberStatus.offline⟩
    minPlayers := ctx.request.minPlayers
    maxPlayers := ctx.request.maxPlayers
    members := ctx.request.members
    memberIdHistory := histFromMembers ctx.request.members
    lockouts := ctx.request.lockouts
    isLocked := false
    addReplayOnJoin := false }

/-- `Expedition::TryCreate` (cache mutation part): validate, allocate
the instance, persist the expedition row, and only then build the
expedition, persist members and lockouts, and emplace it into the zone
cache; every failure returns null with the cache untouched. -/
def Expedition.TryCreate (ctx : CreateContext) (z : ZoneState) : Option Nat × ZoneState :=
  if !ctx.requesterPresent then (none, z)
  else if !ctx.validateOk then (none, z)
  else if effectiveInstanceId ctx == 0 then (none, z)
  else if ctx.insertedId == 0 then (none, z)
  else
    (some ctx.insertedId,
      { z with cache := cacheEmplace z.cache ctx.insertedId (createdExpedition ctx) })

/-- A two-member expedition at capacity, for the capacity witness. -/
def fullExpedition : Expedition :=
  { id := 7, uuid := "u", dynamiczone := DynamicZone.ofInstance 5, expeditionName := "Exp",
    leader := ⟨1, "Alice", ExpeditionMemberStatus.offline⟩, minPlayers := 1, maxPlayers := 2,
    members := [⟨1, "Alice", ExpeditionMemberStatus.online⟩,
      ⟨2, "Bob", ExpeditionMemberStatus.online⟩],
    memberIdHistory := [1, 2], lockouts := [], isLocked := false, addReplayOnJoin := false }

/-- client for C6 witness -/
def replayClient : ClientState :=
  ⟨2, "Bob", 0, 0, [⟨"u", "Exp", DZ_REPLAY_TIMER_NAME, 1000, 500⟩]⟩

/-- C1 counterexample pieces -/
def selfEchoZone : ZoneState := ⟨10, 0, [(7, fullExpedition)]⟩

def nullWorldEnv : WorldEnv := ⟨fun _ => [], fun _ => none, fun _ => none, fun _ => none⟩

/-- three-member roster [Alice(leader), Bob, Cara] with spare capacity -/
def trioExpedition : Expedition :=
  { id := 7, uuid := "u", dynamiczone := DynamicZone.ofInstance 5, expeditionName := "Exp",
    leader := ⟨1, "Alice", ExpeditionMemberStatus.offline⟩, minPlayers := 1, maxPlayers := 6,
    members := [⟨1, "Alice", ExpeditionMemberStatus.online⟩,
      ⟨2, "Bob", ExpeditionMemberStatus.online⟩, ⟨3, "Cara", ExpeditionMemberStatus.online⟩],
    memberIdHistory := [1, 2, 3], lockouts := [], isLocked := false, addReplayOnJoin := false }

/-- single-member roster [Alice(leader)] -/
def soloExpedition : Expedition :=
  { id := 8, uuid := "u8", dynamiczone := DynamicZone.ofInstance 6, expeditionName := "Solo",
    leader := ⟨1, "Alice", ExpeditionMemberStatus.offline⟩, minPlayers := 1, maxPlayers := 6,
    members := [⟨1, "Alice", ExpeditionMemberStatus.online⟩],
    memberIdHistory := [1], lockouts := [], isLocked := false, addReplayOnJoin := false }

/-- The documented roster/leadership operations on one expedition: the
four locally-originated ones and the three replicated cache mutations
applied by the message handler. -/
inductive ExpOp where
  | addMember (add_char_name : String) (add_char_id : Nat)
  | removeMember (remove_char_name : String)
  | swapMember (add_char_name : String) (add_char_id : Nat) (remove_char_name : String)
  | makeLeader (new_leader_name : String)
  | procMemberAdded (char_name : String) (char_id : Nat)
  | procMemberRemoved (char_name : String) (char_id : Nat)
  | procLeaderChanged (char_id : Nat) (char_name : String)
deriving DecidableEq

/-- Apply one operation. -/
def ExpOp.apply : ExpOp → Expedition → Expedition
  | .addMember n i, e => (e.AddMember n i).1
  | .removeMember q, e => (e.RemoveMember q).1
  | .swapMember an ai rn, e => e.SwapMember an ai rn
  | .makeLeader q, e => e.DzMakeLeaderLocal q
  | .procMemberAdded n i, e => e.ProcessMemberAdded n i
  | .procMemberRemoved n i, e => e.ProcessMemberRemoved n i
  | .procLeaderChanged i n, e => e.ProcessLeaderChanged i n

/-- The locally-originated operations (the remaining ones replay another
zone's mutation). -/
def ExpOp.isLocal : ExpOp → Bool
  | .addMember _ _ | .removeMember _ | .swapMember _ _ _ | .makeLeader _ => true
  | _ => false

def applyExpOps (ops : List ExpOp) (e : Expedition) : Expedition :=
  ops.foldl (fun e op => op.apply e) e

/-- Roster character ids are pairwise distinct. -/
def rosterIdsNodup (e : Expedition) : Prop :=
  (e.members.map (fun m => m.charId)).Nodup

/-- Roster stored names are pairwise distinct. -/
def rosterNamesNodup (e : Expedition) : Prop :=
  (e.members.map (fun m => m.name)).Nodup

/-- The leader's character id belongs to some current roster member. -/
def leaderOnRoster (e : Expedition) : Prop :=
  ∃ m ∈ e.members, m.charId = e.leader.charId

instance (e : Expedition) : Decidable (rosterIdsNodup e) := by
  unfold rosterIdsNodup
  infer_instance

instance (e : Expedition) : Decidable (rosterNamesNodup e) := by
  unfold rosterNamesNodup
  infer_instance

instance (e : Expedition) : Decidable (leaderOnRoster e) := by
  unfold leaderOnRoster
  infer_instance

/-- Side conditions under which one local operation is considered (the
names added by an add or swap are fresh, as character names are globally
unique in the game). -/
def LocalOpOk (e : Expedition) : ExpOp → Prop
  | .addMember n _ => ∀ m ∈ e.members, m.name ≠ n
  | .swapMember an _ _ => ∀ m ∈ e.members, m.name ≠ an
  | _ => True

/-- A trace of local operations, each applied under its side conditions
and each leaving the roster non-empty. -/
def LocalTraceOk : Expedition → List ExpOp → Prop
  | _, [] => True
  | e, op :: ops =>
    op.isLocal = true ∧ LocalOpOk e op ∧ (op.apply e).members ≠ [] ∧
      LocalTraceOk (op.apply e) ops

instance localOpOkDec (e : Expedition) (op : ExpOp) : Decidable (LocalOpOk e op) := by
  cases op <;> simp only [LocalOpOk] <;> infer_instance

instance localTraceOkDec : (e : Expedition) → (ops : List ExpOp) → Decidable (LocalTraceOk e ops)
  | _, [] => Decidable.isTrue trivial
  | e, op :: ops =>
    have ih : Decidable (LocalTraceOk (op.apply e) ops) := localTraceOkDec (op.apply e) ops
    show Decidable (op.isLocal = true ∧ LocalOpOk e op ∧ (op.apply e).members ≠ [] ∧
      LocalTraceOk (op.apply e) ops) from inferInstance

/-- Every cached expedition has a duplicate-free roster (by id). -/
def CacheRosterUnique (z : ZoneState) : Prop :=
  ∀ p ∈ z.cache, rosterIdsNodup p.2

instance (z : ZoneState) : Decidable (CacheRosterUnique z) := by
  unfold CacheRosterUnique
  infer_instance

/-- The documented zone-level operations: a local or replicated roster
operation on one cached expedition, a replicated message, the bulk cache
load (`CacheAllFromDatabase`: clear, then parse all rows), and local
expedition creation. -/
inductive ZoneOp where
  | expOp (expedition_id : Nat) (op : ExpOp)
  | world (msg : ServerMsg)
  | bulkLoad (rows : List DbRow)
  | create (ctx : CreateContext)

/-- Apply one zone-level operation. -/
def applyZoneOp (env : WorldEnv) (z : ZoneState) : ZoneOp → ZoneState
  | .expOp expedition_id op => z.applyToCached expedition_id op.apply
  | .world msg => handleWorldMessage env z msg
  | .bulkLoad rows => cacheExpeditions env { z with cache := [] } rows
  | .create ctx => (Expedition.TryCreate ctx z).2

def applyZoneOps (env : WorldEnv) (ops : List ZoneOp) (z : ZoneState) : ZoneState :=
  ops.foldl (applyZoneOp env) z

/-- Side condition: a creation request's initial roster is duplicate
free (guaranteed by the external request validator). -/
def ZoneOpOk : ZoneOp → Prop
  | .create ctx => (ctx.request.members.map (fun m => m.charId)).Nodup
  | _ => True

instance (op : ZoneOp) : Decidable (ZoneOpOk op) := by
  cases op <;> simp only [ZoneOpOk] <;> infer_instance

/-- Inputs for the roster-uniqueness witness run. -/
def witnessRequest : ExpeditionRequest :=
  { expeditionName := "Exp", leaderId := 1, leaderName := "Alice", minPlayers := 1,
    maxPlayers := 6,
    members := [⟨1, "Alice", ExpeditionMemberStatus.online⟩,
      ⟨2, "Bob", ExpeditionMemberStatus.online⟩],
    lockouts := [] }

def witnessCreateCtx : CreateContext :=
  { requesterPresent := true, validateOk := true, dynamiczone := DynamicZone.ofInstance 0,
    createdInstanceId := 5, insertedId := 7, uuid := "u7", request := witnessRequest }

def witnessRow : DbRow :=
  { id := 9, uuid := "u9", expeditionName := "Other", leaderId := 8, leaderName := "Hana",
    minPlayers := 1, maxPlayers := 3, addReplayOnJoin := false, isLocked := false,
    instanceId := 11, memberId := 8, memberName := "Hana", isCurrentMember := true }

def witnessZoneOps : List ZoneOp :=
  [ZoneOp.create witnessCreateCtx,
   ZoneOp.expOp 7 (ExpOp.addMember "Cara" 3),
   ZoneOp.world (ServerMsg.memberChange 7 2 0 4 "Dave" false),
   ZoneOp.expOp 7 (ExpOp.swapMember "Eve" 5 "Bob"),
   ZoneOp.bulkLoad [witnessRow]]

/-! ### Theorems -/

theorem replaceKey_filter_ne (t : List (String × ExpeditionLockoutTimer)) (k : String)
    (v : ExpeditionLockoutTimer) :
    (t.map (fun p => if p.1 == k then (k, v) else p)).filter (fun p => p.1 != k) =
      t.filter (fun p => p.1 != k) := by
  induction t with
  | nil => rfl
  | cons p t ih =>
    by_cases hp : p.1 = k
    · have hpb : (p.1 == k) = true := by simp [hp]
      simp only [List.map_cons, hpb, if_true, List.filter_cons, bne_self_eq_false, hp]
      simpa using ih
    · have hpb : (p.1 == k) = false := by simp [hp]
      have hne : (p.1 != k) = true := by simp [bne, hpb]
      simp only [List.map_cons, hpb, Bool.false_eq_true, if_false, List.filter_cons, hne,
        if_true]
      rw [ih]

theorem replaceKey_filter_eq_nil (t : List (String × ExpeditionLockoutTimer)) (k : String)
    (v : ExpeditionLockoutTimer) (h : ∀ q ∈ t, q.1 ≠ k) :
    (t.map (fun p => if p.1 == k then (k, v) else p)).filter (fun p => p.1 == k) = [] := by
  induction t with
  | nil => rfl
  | cons q t ih =>
    have hq : q.1 ≠ k := h q (List.mem_cons_self q t)
    have hqb : (q.1 == k) = false := by simp [hq]
    simp only [List.map_cons, hqb, Bool.false_eq_true, if_false, List.filter_cons, hqb]
    exact ih (fun r hr => h r (List.mem_cons_of_mem _ hr))

theorem replaceKey_filter_eq (t : List (String × ExpeditionLockoutTimer)) (k : String)
    (v : ExpeditionLockoutTimer) (hk : (t.map Prod.fst).Nodup)
    (hany : t.any (fun p => p.1 == k) = true) :
    (t.map (fun p => if p.1 == k then (k, v) else p)).filter (fun p => p.1 == k) = [(k, v)] := by
  induction t with
  | nil => simp at hany
  | cons p t ih =>
    simp only [List.map_cons, List.nodup_cons] at hk
    by_cases hp : p.1 = k
    · have hpb : (p.1 == k) = true := by simp [hp]
      have hnone : ∀ q ∈ t, q.1 ≠ k := by
        intro q hq hqk
        apply hk.1
        rw [hp, ← hqk]
        exact List.mem_map_of_mem Prod.fst hq
      simp only [List.map_cons, hpb, if_true, List.filter_cons, beq_self_eq_true, if_true]
      rw [replaceKey_filter_eq_nil t k v hnone]
    · have hpb : (p.1 == k) = false := by simp [hp]
      have hany' : t.any (fun p => p.1 == k) = true := by
        simp only [List.any_cons, hpb, Bool.false_or] at hany
        exact hany
      simp only [List.map_cons, hpb, Bool.false_eq_true, if_false, List.filter_cons, hpb]
      exact ih hk.2 hany'

theorem lockoutsAssign_filter_ne (ls : List (String × ExpeditionLockoutTimer)) (k : String)
    (v : ExpeditionLockoutTimer) :
    (lockoutsAssign ls k v).filter (fun p => p.1 != k) = ls.filter (fun p => p.1 != k) := by
  unfold lockoutsAssign
  split
  · exact replaceKey_filter_ne ls k v
  · simp

theorem lockoutsAssign_filter_eq (ls : List (String × ExpeditionLockoutTimer)) (k : String)
    (v : ExpeditionLockoutTimer) (hk : (ls.map Prod.fst).Nodup) :
    (lockoutsAssign ls k v).filter (fun p => p.1 == k) = [(k, v)] := by
  unfold lockoutsAssign
  split
  case isTrue hany => exact replaceKey_filter_eq ls k v hk hany
  case isFalse hany =>
    have hnil : ls.filter (fun p => p.1 == k) = [] := by
      rw [List.filter_eq_nil_iff]
      intro p hp hpk
      exact hany (List.any_eq_true.mpr ⟨p, hp, hpk⟩)
    simp [List.filter_append, hnil]

theorem lockoutsAssign_keys_nodup (ls : List (String × ExpeditionLockoutTimer)) (k : String)
    (v : ExpeditionLockoutTimer) (hk : (ls.map Prod.fst).Nodup) :
    ((lockoutsAssign ls k v).map Prod.fst).Nodup := by
  unfold lockoutsAssign
  split
  case isTrue hany =>
    have hmap : (ls.map (fun p => if p.1 == k then (k, v) else p)).map Prod.fst =
        ls.map Prod.fst := by
      rw [List.map_map]
      apply List.map_congr_left
      intro p _
      by_cases hp : p.1 = k
      · simp [hp]
      · simp [hp]
    rw [hmap]
    exact hk
  case isFalse hany =>
    rw [List.map_append, List.nodup_append]
    refine ⟨hk, List.nodup_singleton k, ?_⟩
    intro a ha hamem
    simp only [List.map_cons, List.map_nil, List.mem_singleton] at hamem
    subst hamem
    obtain ⟨p, hp, hpk⟩ := List.mem_map.mp ha
    exact hany (List.any_eq_true.mpr ⟨p, hp, by simp [hpk]⟩)

/-- Claim C5: accepting a non-swap invite while the roster is at or
above `max_players` is rejected by conflict validation (or the lock
check) and leaves the expedition - roster included - unchanged. -/
theorem c5_capacity_reject (e : Expedition) (in_dz_instance : Bool) (add_client : ClientState)
    (hcap : e.GetMemberCount ≥ e.maxPlayers) :
    e.DzInviteResponse in_dz_instance add_client true "" = (e, true) := by
  have hmem : ConflictReason.exceedMax ∈ e.ProcessAddConflicts in_dz_instance add_client false := by
    simp only [Expedition.ProcessAddConflicts, List.mem_append]
    refine Or.inl (Or.inr ?_)
    simp [hcap]
  have hconf : e.HasAddConflicts in_dz_instance add_client false = true := by
    simp only [Expedition.HasAddConflicts, Bool.not_eq_true']
    exact List.isEmpty_eq_false.mpr (List.ne_nil_of_mem hmem)
  unfold Expedition.DzInviteResponse
  cases hl : e.isLocked
  · simp [hl, hconf]
  · simp [hl]

/-- Claim C5 witness: a two-member expedition with max_players 2
rejects a third accept without mutation. -/
theorem c5_capacity_witness :
    fullExpedition.GetMemberCount ≥ fullExpedition.maxPlayers ∧
      fullExpedition.DzInviteResponse false ⟨3, "Cara", 0, 0, []⟩ true ""
        = (fullExpedition, true) :=
  ⟨by decide, c5_capacity_reject fullExpedition false ⟨3, "Cara", 0, 0, []⟩ (by decide)⟩

/-- Claim C6: a character whose id is in `member_id_history` is never
reported by conflict validation with the replay-lockout conflict,
whatever its lockouts and roster status. -/
theorem c6_replay_exemption (e : Expedition) (in_dz_instance : Bool) (add_client : ClientState)
    (swapping : Bool) (hhist : add_client.charId ∈ e.memberIdHistory) :
    ConflictReason.replayTimer ∉ e.ProcessAddConflicts in_dz_instance add_client swapping := by
  intro hmem
  have hwas : e.memberIdHistory.contains add_client.charId = true := List.elem_iff.mpr hhist
  simp only [Expedition.ProcessAddConflicts, hwas, Bool.not_true, Bool.false_and,
    Bool.false_eq_true, if_false, List.mem_append, List.not_mem_nil, or_false, false_or,
    List.mem_singleton, List.mem_filterMap] at hmem
  rcases hmem with ((((h | h) | ⟨l, hl, h⟩) | h) | h) <;>
    (revert h; split <;> simp <;> split <;> simp)

/-- Claim C6 witness: a historical member holding a replay lockout
passes conflict validation with no conflicts at all. -/
theorem c6_replay_witness :
    replayClient.charId ∈ fullExpedition.memberIdHistory ∧
      ConflictReason.replayTimer ∉
        fullExpedition.ProcessAddConflicts false replayClient false :=
  ⟨by decide, c6_replay_exemption fullExpedition false replayClient false (by decide)⟩

/-- Claim C7: `AddLockout(X, s1)` at time t1 followed by
`AddLockout(X, s2)` at time t2 leaves exactly one lockout entry for X,
stamped with duration s2 and expiry t2 + s2, and leaves every other
event's entry untouched - re-adding overwrites by key rather than
accumulating. -/
theorem c7_lockout_overwrite (e : Expedition) (t1 t2 s1 s2 : Nat) (X : String)
    (hk : (e.lockouts.map Prod.fst).Nodup) :
    ((e.AddLockout t1 X s1).AddLockout t2 X s2).lockouts.filter (fun p => p.1 == X) =
        [(X, ⟨e.uuid, e.expeditionName, X, t2 + s2, s2⟩)] ∧
      ((e.AddLockout t1 X s1).AddLockout t2 X s2).lockouts.filter (fun p => p.1 != X) =
        e.lockouts.filter (fun p => p.1 != X) := by
  have h1 : (e.AddLockout t1 X s1).lockouts =
      lockoutsAssign e.lockouts X ⟨e.uuid, e.expeditionName, X, t1 + s1, s1⟩ := rfl
  have h2 : ((e.AddLockout t1 X s1).AddLockout t2 X s2).lockouts =
      lockoutsAssign (e.AddLockout t1 X s1).lockouts X
        ⟨e.uuid, e.expeditionName, X, t2 + s2, s2⟩ := rfl
  constructor
  · rw [h2]
    apply lockoutsAssign_filter_eq
    rw [h1]
    exact lockoutsAssign_keys_nodup e.lockouts X _ hk
  · rw [h2, lockoutsAssign_filter_ne, h1, lockoutsAssign_filter_ne]

/-- Claim C7 witness: two concrete `AddLockout` calls for event X keep
one entry with the second call's stamps. -/
theorem c7_lockout_witness :
    ((fullExpedition.lockouts.map Prod.fst).Nodup) ∧
      ((fullExpedition.AddLockout 10 "X" 60).AddLockout 20 "X" 30).lockouts.filter
          (fun p => p.1 == "X") = [("X", ⟨"u", "Exp", "X", 50, 30⟩)] :=
  ⟨by decide, (c7_lockout_overwrite fullExpedition 10 20 60 30 "X" (by decide)).1⟩

/-- Claim C10: name-based member lookup is ASCII case-insensitive - a
query equal to a stored member name up to letter case makes
`HasMember(name)` succeed, and `GetMemberData(name)` returns a roster
member whose stored name matches the query up to case (the queried
member itself whenever it is the only case-insensitive match). -/
theorem c10_case_insensitive_lookup (e : Expedition) (m : ExpeditionMember) (q : String)
    (hm : m ∈ e.members) (hq : caseEq m.name q = true) :
    e.HasMemberName q = true ∧
      (e.GetMemberDataByName q) ∈ e.members ∧
      caseEq (e.GetMemberDataByName q).name q = true ∧
      ((∀ x ∈ e.members, caseEq x.name q = true → x = m) → e.GetMemberDataByName q = m) := by
  have hsome : (e.members.find? (fun x => caseEq x.name q)).isSome := by
    rw [List.find?_isSome]
    exact ⟨m, hm, hq⟩
  obtain ⟨found, hfound⟩ := Option.isSome_iff_exists.mp hsome
  have hfmem : found ∈ e.members := List.mem_of_find?_eq_some hfound
  have hfeq := List.find?_some hfound
  change caseEq found.name q = true at hfeq
  have hget : e.GetMemberDataByName q = found := by
    simp [Expedition.GetMemberDataByName, hfound]
  refine ⟨?_, ?_, ?_, ?_⟩
  · exact List.any_eq_true.mpr ⟨m, hm, hq⟩
  · rw [hget]; exact hfmem
  · rw [hget]; exact hfeq
  · intro huniq
    rw [hget]
    exact huniq found hfmem hfeq

/-- Claim C10 witness: looking up stored name "Bob" with query "bOB"
finds the member. -/
theorem c10_case_witness :
    (⟨2, "Bob", ExpeditionMemberStatus.online⟩ : ExpeditionMember) ∈ fullExpedition.members ∧
      caseEq "Bob" "bOB" = true ∧
      fullExpedition.HasMemberName "bOB" = true ∧
      fullExpedition.GetMemberDataByName "bOB" ∈ fullExpedition.members :=
  ⟨by decide, by decide,
    (c10_case_insensitive_lookup fullExpedition ⟨2, "Bob", ExpeditionMemberStatus.online⟩ "bOB"
      (by decide) (by decide)).1,
    (c10_case_insensitive_lookup fullExpedition ⟨2, "Bob", ExpeditionMemberStatus.online⟩ "bOB"
      (by decide) (by decide)).2.1⟩

/-- Claim C8: `TryCreate` inserts a cache entry exactly when the
requester exists, validation succeeds, the instance allocation yields a
nonzero id and the expedition row insert yields a nonzero id; any
failure returns null with the cache unchanged - no partial expedition
is created. -/
theorem c8_tryCreate_atomic (ctx : CreateContext) (z : ZoneState) :
    Expedition.TryCreate ctx z =
      if ctx.requesterPresent && ctx.validateOk && (effectiveInstanceId ctx != 0)
          && (ctx.insertedId != 0) then
        (some ctx.insertedId,
          { z with cache := cacheEmplace z.cache ctx.insertedId (createdExpedition ctx) })
      else (none, z) := by
  unfold Expedition.TryCreate
  cases hr : ctx.requesterPresent <;> cases hv : ctx.validateOk <;>
    cases hi : effectiveInstanceId ctx == 0 <;> cases hd : ctx.insertedId == 0 <;>
    simp [hr, hv, hi, hd, bne]

/-- Claim C1 (amended): applying a replicated message that carries a
sender identity equal to the receiving zone's own identity through
`handleWorldMessage` changes neither the expedition cache nor any cached
expedition - except for the coordinator's deletion notice and the bulk
online-members reply, which the handler applies without a self-echo
check. -/
theorem c1_self_echo_amended (env : WorldEnv) (z : ZoneState) (msg : ServerMsg)
    (hsender : msg.senderIdentity = some (z.zoneId, z.instanceId))
    (hdel : msg.isDeleted = false) (hreply : msg.isGetOnlineMembers = false) :
    handleWorldMessage env z msg = z := by
  cases msg <;>
    simp_all [ServerMsg.senderIdentity, ServerMsg.isDeleted, ServerMsg.isGetOnlineMembers,
      handleWorldMessage, ZoneState.IsZone]

/-- Claim C1 counterexample: the expedition-deleted notice carries a
sender identity, yet a zone whose identity equals that sender still
erases the cached expedition - a state change on a self-identified
message, contradicting the claim as stated. -/
theorem c1_deleted_counterexample :
    (ServerMsg.deleted 7 10 0).senderIdentity =
        some (selfEchoZone.zoneId, selfEchoZone.instanceId) ∧
      handleWorldMessage nullWorldEnv selfEchoZone (ServerMsg.deleted 7 10 0) ≠ selfEchoZone := by
  constructor
  · rfl
  · decide

theorem caseEq_refl (s : String) : caseEq s s = true := by simp [caseEq]

theorem ne_of_caseEq_false {s t : String} (h : caseEq s t = false) : s ≠ t := by
  intro he
  subst he
  rw [caseEq_refl] at h
  exact Bool.true_eq_false.mp h

/-- Claim C2 (amended): on roster [a, b, c] with a non-member add,
`SwapMember(add, b.name)` erases b's entry in place and appends the
added member at the END of the roster, yielding [a, c, add] (not
[a, add, c]); leader re-election triggers exactly when b was the
leader, promoting a. -/
theorem c2_swapMember_amended (e : Expedition) (a b c : ExpeditionMember)
    (dName : String) (dId : Nat)
    (hmem : e.members = [a, b, c])
    (hab : caseEq a.name b.name = false) (hcb : caseEq c.name b.name = false)
    (hidab : a.charId ≠ b.charId)
    (hd1 : dId ≠ a.charId) (hd2 : dId ≠ c.charId)
    (hb0 : b.charId ≠ 0) (hbn : b.name ≠ "") :
    (e.SwapMember dName dId b.name).members =
        [a, c, ⟨dId, dName, ExpeditionMemberStatus.online⟩] ∧
      (b.charId = e.leader.charId →
        (e.SwapMember dName dId b.name).leader.charId = a.charId ∧
          (e.SwapMember dName dId b.name).leader.name = a.name) ∧
      (b.charId ≠ e.leader.charId →
        (e.SwapMember dName dId b.name).leader = e.leader) := by
  have hane : a.name ≠ b.name := ne_of_caseEq_false hab
  have hcne : c.name ≠ b.name := ne_of_caseEq_false hcb
  have hget : e.GetMemberDataByName b.name = b := by
    simp [Expedition.GetMemberDataByName, hmem, List.find?, hab, caseEq_refl]
  have hane' : (a.name != b.name) = true := bne_iff_ne.mpr hane
  have hcne' : (c.name != b.name) = true := bne_iff_ne.mpr hcne
  have hempty : (b.name == "") = false := by simp [hbn]
  have hb0' : (b.charId == 0) = false := by simp [hb0]
  have he1 : e.ProcessMemberRemoved b.name b.charId = { e with members := [a, c] } := by
    simp [Expedition.ProcessMemberRemoved, hmem, List.filter, hane', hcne']
  have hda : (a.charId == dId) = false := by simp [Ne.symm hd1]
  have hdc : (c.charId == dId) = false := by simp [Ne.symm hd2]
  have he2 : ({ e with members := [a, c] } : Expedition).ProcessMemberAdded dName dId =
      { e with members := [a, c, ⟨dId, dName, ExpeditionMemberStatus.online⟩],
               memberIdHistory :=
                 if e.memberIdHistory.contains dId then e.memberIdHistory
                 else e.memberIdHistory ++ [dId] } := by
    simp [Expedition.ProcessMemberAdded, Expedition.AddInternalMember, hda, hdc]
  by_cases hbl : b.charId = e.leader.charId
  · have hbl' : (b.charId == e.leader.charId) = true := by simp [hbl]
    have hfa : (a.charId != e.leader.charId) = true := by
      rw [← hbl]
      exact bne_iff_ne.mpr hidab
    have heq : e.SwapMember dName dId b.name =
        { e with members := [a, c, ⟨dId, dName, ExpeditionMemberStatus.online⟩],
                 memberIdHistory :=
                   if e.memberIdHistory.contains dId then e.memberIdHistory
                   else e.memberIdHistory ++ [dId],
                 leader := { e.leader with charId := a.charId, name := a.name } } := by
      simp only [Expedition.SwapMember, hempty, Bool.false_eq_true, if_false, hget, hb0',
        Bool.or_self, he1, he2, Expedition.ChooseNewLeader, Expedition.SetNewLeader,
        Expedition.ProcessLeaderChanged, hbl', List.find?, hfa, List.isEmpty_cons,
        Bool.not_false, Bool.and_self, if_true]
    rw [heq]
    refine ⟨rfl, fun _ => ⟨rfl, rfl⟩, fun hne => absurd hbl hne⟩
  · have hbl' : (b.charId == e.leader.charId) = false := by simp [hbl]
    have heq : e.SwapMember dName dId b.name =
        { e with members := [a, c, ⟨dId, dName, ExpeditionMemberStatus.online⟩],
                 memberIdHistory :=
                   if e.memberIdHistory.contains dId then e.memberIdHistory
                   else e.memberIdHistory ++ [dId] } := by
      simp only [Expedition.SwapMember, hempty, Bool.false_eq_true, if_false, hget, hb0',
        Bool.or_self, he1, he2, hbl', List.isEmpty_cons, Bool.not_false, Bool.and_false,
        if_false]
    rw [heq]
    exact ⟨rfl, fun hcon => absurd hcon hbl, fun _ => rfl⟩

/-- leader is preserved by the removal pass -/
theorem processMemberRemoved_leader (e : Expedition) (n : String) (i : Nat) :
    (e.ProcessMemberRemoved n i).leader = e.leader := by
  unfold Expedition.ProcessMemberRemoved
  split <;> rfl

/-- Claim C3 (amended): removing the leader (looked up by name, with
duplicate-free roster ids) removes exactly the matching entries and
promotes the FIRST remaining roster entry in stable insertion order;
if the roster is empty afterwards the leader field is left UNCHANGED
(still naming the outgoing leader), not unset. -/
theorem c3_reelection_amended (e : Expedition) (q : String)
    (hids : (e.members.map (fun x => x.charId)).Nodup)
    (hm0 : (e.GetMemberDataByName q).charId ≠ 0)
    (hmn : (e.GetMemberDataByName q).name ≠ "")
    (hlead : (e.GetMemberDataByName q).charId = e.leader.charId) :
    (e.RemoveMember q).2 = true ∧
      (e.RemoveMember q).1.members =
        e.members.filter (fun x => x.name != (e.GetMemberDataByName q).name) ∧
      (∀ first rest, (e.RemoveMember q).1.members = first :: rest →
        (e.RemoveMember q).1.leader.charId = first.charId ∧
          (e.RemoveMember q).1.leader.name = first.name) ∧
      ((e.RemoveMember q).1.members = [] → (e.RemoveMember q).1.leader = e.leader) := by
  have hm0' : ((e.GetMemberDataByName q).charId == 0) = false := by simp [hm0]
  have hmn' : ((e.GetMemberDataByName q).name == "") = false := by simp [hmn]
  have hfind : e.members.find? (fun x => caseEq x.name q) = some (e.GetMemberDataByName q) := by
    unfold Expedition.GetMemberDataByName at hm0 ⊢
    cases hj : e.members.find? (fun x => caseEq x.name q) with
    | none => rw [hj] at hm0; simp [emptyMemberData] at hm0
    | some found => simp [hj]
  have hmmem : e.GetMemberDataByName q ∈ e.members := List.mem_of_find?_eq_some hfind
  have hne : e.members.isEmpty = false :=
    List.isEmpty_eq_false.mpr (List.ne_nil_of_mem hmmem)
  have hmem1 : (e.ProcessMemberRemoved (e.GetMemberDataByName q).name
      (e.GetMemberDataByName q).charId).members =
      e.members.filter (fun x => x.name != (e.GetMemberDataByName q).name) := by
    unfold Expedition.ProcessMemberRemoved
    simp [hne]
  have hstep : e.RemoveMember q =
      (((e.ProcessMemberRemoved (e.GetMemberDataByName q).name
          (e.GetMemberDataByName q).charId).ChooseNewLeader).1, true) := by
    unfold Expedition.RemoveMember
    simp only [hm0', hmn', Bool.or_self, Bool.false_eq_true, if_false,
      processMemberRemoved_leader]
    rw [if_pos (by simp [hlead])]
  set e1 := e.ProcessMemberRemoved (e.GetMemberDataByName q).name
      (e.GetMemberDataByName q).charId with he1def
  have he1lead : e1.leader = e.leader := processMemberRemoved_leader e _ _
  refine ⟨by rw [hstep], ?_, ?_, ?_⟩
  · rw [hstep]
    show (e1.ChooseNewLeader).1.members = _
    unfold Expedition.ChooseNewLeader
    split <;> simp [Expedition.SetNewLeader, Expedition.ProcessLeaderChanged, hmem1]
  · intro first rest hfr
    rw [hstep] at hfr ⊢
    have hfr' : e1.members = first :: rest := by
      revert hfr
      show (e1.ChooseNewLeader).1.members = first :: rest → e1.members = first :: rest
      unfold Expedition.ChooseNewLeader
      split <;> simp [Expedition.SetNewLeader, Expedition.ProcessLeaderChanged]
    have hfmem : first ∈ e1.members := by rw [hfr']; exact List.mem_cons_self first rest
    rw [hmem1] at hfmem
    have hfm := List.mem_filter.mp hfmem
    have hfne : first.charId ≠ (e.GetMemberDataByName q).charId := by
      intro hcid
      have := List.inj_on_of_nodup_map hids hfm.1 hmmem hcid
      rw [this] at hfm
      simp at hfm
    have hpred : (first.charId != e1.leader.charId) = true := by
      rw [he1lead, ← hlead]
      exact bne_iff_ne.mpr hfne
    have hfindfirst : e1.members.find? (fun x => x.charId != e1.leader.charId) = some first := by
      rw [hfr']
      simp [List.find?, hpred]
    show ((e1.ChooseNewLeader).1.leader.charId = first.charId ∧
      (e1.ChooseNewLeader).1.leader.name = first.name)
    unfold Expedition.ChooseNewLeader
    rw [hfindfirst]
    exact ⟨rfl, rfl⟩
  · intro hempty
    rw [hstep] at hempty ⊢
    have hfr' : e1.members = [] := by
      revert hempty
      show (e1.ChooseNewLeader).1.members = [] → e1.members = []
      unfold Expedition.ChooseNewLeader
      split <;> simp [Expedition.SetNewLeader, Expedition.ProcessLeaderChanged]
    have hfindnone : e1.members.find? (fun x => x.charId != e1.leader.charId) = none := by
      rw [hfr']
      rfl
    show (e1.ChooseNewLeader).1.leader = e.leader
    unfold Expedition.ChooseNewLeader
    rw [hfindnone]
    exact he1lead

/-- Claim C1 witness: a concrete lock-state message whose sender equals
the local zone identity is discarded without any state change. -/
theorem c1_self_echo_witness :
    (ServerMsg.lockState 7 10 0 true).senderIdentity =
        some (selfEchoZone.zoneId, selfEchoZone.instanceId) ∧
      handleWorldMessage nullWorldEnv selfEchoZone (ServerMsg.lockState 7 10 0 true) =
        selfEchoZone :=
  ⟨by decide, c1_self_echo_amended nullWorldEnv selfEchoZone (ServerMsg.lockState 7 10 0 true)
    (by decide) (by decide) (by decide)⟩

/-- Claim C2 counterexample: swapping Bob (id 2) out of
[Alice, Bob, Cara] for Dave (id 4) yields ids [1, 3, 4] - the added
member sits at the end, not at the removed member's position [1, 4, 3]
the claim requires. -/
theorem c2_swap_order_counterexample :
    (trioExpedition.SwapMember "Dave" 4 "Bob").members.map (fun m => m.charId) = [1, 3, 4] ∧
      (trioExpedition.SwapMember "Dave" 4 "Bob").members.map (fun m => m.charId) ≠ [1, 4, 3] := by
  decide

/-- Claim C2 witness: the amended swap shape at a concrete roster. -/
theorem c2_swap_witness :
    trioExpedition.members = [⟨1, "Alice", ExpeditionMemberStatus.online⟩,
        ⟨2, "Bob", ExpeditionMemberStatus.online⟩, ⟨3, "Cara", ExpeditionMemberStatus.online⟩] ∧
      (trioExpedition.SwapMember "Dave" 4 "Bob").members =
        [⟨1, "Alice", ExpeditionMemberStatus.online⟩, ⟨3, "Cara", ExpeditionMemberStatus.online⟩,
          ⟨4, "Dave", ExpeditionMemberStatus.online⟩] ∧
      (trioExpedition.SwapMember "Dave" 4 "Bob").leader = trioExpedition.leader :=
  ⟨by decide,
    (c2_swapMember_amended trioExpedition ⟨1, "Alice", ExpeditionMemberStatus.online⟩
      ⟨2, "Bob", ExpeditionMemberStatus.online⟩ ⟨3, "Cara", ExpeditionMemberStatus.online⟩
      "Dave" 4 (by decide) (by decide) (by decide) (by decide) (by decide) (by decide)
      (by decide) (by decide)).1,
    (c2_swapMember_amended trioExpedition ⟨1, "Alice", ExpeditionMemberStatus.online⟩
      ⟨2, "Bob", ExpeditionMemberStatus.online⟩ ⟨3, "Cara", ExpeditionMemberStatus.online⟩
      "Dave" 4 (by decide) (by decide) (by decide) (by decide) (by decide) (by decide)
      (by decide) (by decide)).2.2 (by decide)⟩

/-- Claim C3 counterexample: removing the only member (the leader)
leaves an empty roster whose leader field still holds the outgoing
leader's nonzero character id - leadership is not left unset. -/
theorem c3_empty_roster_counterexample :
    (soloExpedition.RemoveMember "Alice").2 = true ∧
      (soloExpedition.RemoveMember "Alice").1.members = [] ∧
      (soloExpedition.RemoveMember "Alice").1.leader.charId = 1 ∧
      (soloExpedition.RemoveMember "Alice").1.leader.charId ≠ 0 := by
  decide

/-- Claim C3 witness: removing leader Alice from [Alice, Bob, Cara]
promotes Bob, the first remaining entry. -/
theorem c3_reelection_witness :
    (trioExpedition.GetMemberDataByName "Alice").charId = trioExpedition.leader.charId ∧
      (trioExpedition.RemoveMember "Alice").1.leader.charId = 2 ∧
      (trioExpedition.RemoveMember "Alice").1.leader.name = "Bob" :=
  ⟨by decide, by
    have h := c3_reelection_amended trioExpedition "Alice" (by decide) (by decide) (by decide)
      (by decide)
    have h2 := h.2.2.1 ⟨2, "Bob", ExpeditionMemberStatus.online⟩
      [⟨3, "Cara", ExpeditionMemberStatus.online⟩] (by decide)
    exact h2.1, by
    have h := c3_reelection_amended trioExpedition "Alice" (by decide) (by decide) (by decide)
      (by decide)
    have h2 := h.2.2.1 ⟨2, "Bob", ExpeditionMemberStatus.online⟩
      [⟨3, "Cara", ExpeditionMemberStatus.online⟩] (by decide)
    exact h2.2⟩

theorem chooseNewLeader_members (e : Expedition) :
    (e.ChooseNewLeader).1.members = e.members := by
  unfold Expedition.ChooseNewLeader
  split <;> rfl

theorem chooseNewLeader_leaderOnRoster (e : Expedition) (hne : e.members ≠ []) :
    leaderOnRoster (e.ChooseNewLeader).1 := by
  unfold Expedition.ChooseNewLeader
  cases hf : e.members.find? (fun m => m.charId != e.leader.charId) with
  | some m =>
    exact ⟨m, List.mem_of_find?_eq_some hf, rfl⟩
  | none =>
    cases hm : e.members with
    | nil => exact absurd hm hne
    | cons h t =>
      have hall := List.find?_eq_none.mp hf h (by rw [hm]; exact List.mem_cons_self h t)
      have hh : h.charId = e.leader.charId := by
        simpa using hall
      exact ⟨h, by rw [hm]; exact List.mem_cons_self h t, hh⟩

theorem processMemberRemoved_members (e : Expedition) (n : String) (i : Nat)
    (hne : e.members ≠ []) :
    (e.ProcessMemberRemoved n i).members = e.members.filter (fun m => m.name != n) := by
  unfold Expedition.ProcessMemberRemoved
  simp [List.isEmpty_eq_false.mpr hne]

theorem processMemberRemoved_leader_eq (e : Expedition) (n : String) (i : Nat) :
    (e.ProcessMemberRemoved n i).leader = e.leader := processMemberRemoved_leader e n i

theorem getMemberData_mem (e : Expedition) (q : String)
    (hm0 : (e.GetMemberDataByName q).charId ≠ 0) :
    e.GetMemberDataByName q ∈ e.members := by
  unfold Expedition.GetMemberDataByName at hm0 ⊢
  cases hj : e.members.find? (fun x => caseEq x.name q) with
  | none => rw [hj] at hm0; simp [emptyMemberData] at hm0
  | some found =>
    show (some found).getD emptyMemberData ∈ e.members
    exact List.mem_of_find?_eq_some hj

theorem addMember_inv (e : Expedition) (n : String) (i : Nat)
    (hnames : rosterNamesNodup e) (hlead : leaderOnRoster e)
    (hok : ∀ m ∈ e.members, m.name ≠ n) :
    rosterNamesNodup (e.AddMember n i).1 ∧ leaderOnRoster (e.AddMember n i).1 := by
  by_cases hh : e.HasMemberId i = true
  · have : e.AddMember n i = (e, false) := by unfold Expedition.AddMember; simp [hh]
    rw [this]
    exact ⟨hnames, hlead⟩
  · have hh' : e.HasMemberId i = false := eq_false_of_ne_true hh
    have hstep : (e.AddMember n i).1 = e.ProcessMemberAdded n i := by
      unfold Expedition.AddMember
      simp [hh']
    have hmem : (e.ProcessMemberAdded n i).members =
        e.members ++ [⟨i, n, ExpeditionMemberStatus.online⟩] := by
      unfold Expedition.ProcessMemberAdded Expedition.AddInternalMember
      have hany : (e.members.any fun m => m.charId == i) = false := hh'
      simp [hany]
    have hld : (e.ProcessMemberAdded n i).leader = e.leader := rfl
    rw [hstep]
    constructor
    · unfold rosterNamesNodup
      rw [hmem, List.map_append, List.nodup_append]
      refine ⟨hnames, List.nodup_singleton _, ?_⟩
      intro a ha hb
      simp only [List.map_cons, List.map_nil, List.mem_singleton] at hb
      subst hb
      obtain ⟨m, hm, hmn⟩ := List.mem_map.mp ha
      exact hok m hm hmn
    · obtain ⟨L, hL, hLc⟩ := hlead
      exact ⟨L, by rw [hmem]; exact List.mem_append_left _ hL, by rw [hld]; exact hLc⟩

theorem removeMember_inv (e : Expedition) (q : String)
    (hnames : rosterNamesNodup e) (hlead : leaderOnRoster e)
    (hne : ((e.RemoveMember q).1).members ≠ []) :
    rosterNamesNodup (e.RemoveMember q).1 ∧ leaderOnRoster (e.RemoveMember q).1 := by
  by_cases hg : ((e.GetMemberDataByName q).charId == 0
      || (e.GetMemberDataByName q).name == "") = true
  · have : e.RemoveMember q = (e, false) := by unfold Expedition.RemoveMember; simp_all
    rw [this]
    exact ⟨hnames, hlead⟩
  · have hg' : ((e.GetMemberDataByName q).charId == 0
        || (e.GetMemberDataByName q).name == "") = false := eq_false_of_ne_true hg
    have hm0 : (e.GetMemberDataByName q).charId ≠ 0 := by
      intro h0
      rw [h0] at hg'
      simp at hg'
    have hmmem := getMemberData_mem e q hm0
    have hnen : e.members ≠ [] := List.ne_nil_of_mem hmmem
    have hfilter := processMemberRemoved_members e (e.GetMemberDataByName q).name
      (e.GetMemberDataByName q).charId hnen
    have hnames1 : rosterNamesNodup (e.ProcessMemberRemoved (e.GetMemberDataByName q).name
        (e.GetMemberDataByName q).charId) := by
      unfold rosterNamesNodup
      rw [hfilter]
      have hsub : ((e.members.filter
            (fun m => m.name != (e.GetMemberDataByName q).name)).map (fun m => m.name)).Sublist
          (e.members.map (fun m => m.name)) :=
        List.Sublist.map _ (List.filter_sublist _)
      exact hsub.nodup hnames
    by_cases hc : ((e.GetMemberDataByName q).charId == e.leader.charId) = true
    · have hstep : e.RemoveMember q =
          (((e.ProcessMemberRemoved (e.GetMemberDataByName q).name
              (e.GetMemberDataByName q).charId).ChooseNewLeader).1, true) := by
        unfold Expedition.RemoveMember
        simp only [hg', Bool.false_eq_true, if_false, processMemberRemoved_leader_eq, hc,
          if_true]
      rw [hstep] at hne ⊢
      constructor
      · unfold rosterNamesNodup
        rw [chooseNewLeader_members]
        exact hnames1
      · apply chooseNewLeader_leaderOnRoster
        intro hnil
        apply hne
        rw [chooseNewLeader_members, hnil]
    · have hc' : ((e.GetMemberDataByName q).charId == e.leader.charId) = false :=
        eq_false_of_ne_true hc
      have hstep : e.RemoveMember q =
          ((e.ProcessMemberRemoved (e.GetMemberDataByName q).name
              (e.GetMemberDataByName q).charId), true) := by
        unfold Expedition.RemoveMember
        simp only [hg', Bool.false_eq_true, if_false, processMemberRemoved_leader_eq, hc',
          if_false]
      rw [hstep]
      refine ⟨hnames1, ?_⟩
      obtain ⟨L, hL, hLc⟩ := hlead
      have hLname : L.name ≠ (e.GetMemberDataByName q).name := by
        intro heq
        have hLm : L = e.GetMemberDataByName q := by
          apply List.inj_on_of_nodup_map hnames hL hmmem
          exact heq
        rw [← hLm] at hc'
        rw [hLc] at hc'
        simp at hc'
      refine ⟨L, ?_, ?_⟩
      · rw [hfilter]
        exact List.mem_filter.mpr ⟨hL, bne_iff_ne.mpr hLname⟩
      · rw [processMemberRemoved_leader_eq]
        exact hLc

theorem processMemberAdded_leader (e : Expedition) (n : String) (i : Nat) :
    (e.ProcessMemberAdded n i).leader = e.leader := rfl

theorem processMemberAdded_members (e : Expedition) (n : String) (i : Nat) :
    (e.ProcessMemberAdded n i).members =
      if (e.members.any fun m => m.charId == i) = true then e.members
      else e.members ++ [⟨i, n, ExpeditionMemberStatus.online⟩] := by
  unfold Expedition.ProcessMemberAdded Expedition.AddInternalMember
  cases h : e.members.any fun m => m.charId == i <;> simp [h]

theorem swapMember_inv (e : Expedition) (an : String) (ai : Nat) (rn : String)
    (hnames : rosterNamesNodup e) (hlead : leaderOnRoster e)
    (hok : ∀ m ∈ e.members, m.name ≠ an)
    (hne : (e.SwapMember an ai rn).members ≠ []) :
    rosterNamesNodup (e.SwapMember an ai rn) ∧ leaderOnRoster (e.SwapMember an ai rn) := by
  by_cases hq0 : (rn == "") = true
  · have : e.SwapMember an ai rn = e := by unfold Expedition.SwapMember; simp [hq0]
    rw [this]
    exact ⟨hnames, hlead⟩
  · have hq0' : (rn == "") = false := eq_false_of_ne_true hq0
    by_cases hg : ((e.GetMemberDataByName rn).charId == 0
        || (e.GetMemberDataByName rn).name == "") = true
    · have : e.SwapMember an ai rn = e := by
        unfold Expedition.SwapMember
        simp [hq0', hg]
      rw [this]
      exact ⟨hnames, hlead⟩
    · have hg' : ((e.GetMemberDataByName rn).charId == 0
          || (e.GetMemberDataByName rn).name == "") = false := eq_false_of_ne_true hg
      have hm0 : (e.GetMemberDataByName rn).charId ≠ 0 := by
        intro h0
        rw [h0] at hg'
        simp at hg'
      have hmmem := getMemberData_mem e rn hm0
      have hnen : e.members ≠ [] := List.ne_nil_of_mem hmmem
      have hfilter := processMemberRemoved_members e (e.GetMemberDataByName rn).name
        (e.GetMemberDataByName rn).charId hnen
      set e1 := e.ProcessMemberRemoved (e.GetMemberDataByName rn).name
        (e.GetMemberDataByName rn).charId with he1
      set e2 := e1.ProcessMemberAdded an ai with he2
      have he1sub : ∀ m ∈ e1.members, m ∈ e.members := by
        intro m hm
        rw [hfilter] at hm
        exact (List.mem_filter.mp hm).1
      have hnames2 : rosterNamesNodup e2 := by
        unfold rosterNamesNodup
        rw [he2, processMemberAdded_members]
        split
        · have hsub : (e1.members.map (fun m => m.name)).Sublist
              (e.members.map (fun m => m.name)) := by
            rw [hfilter]
            exact List.Sublist.map _ (List.filter_sublist _)
          exact hsub.nodup hnames
        · rw [List.map_append, List.nodup_append]
          have hsub : (e1.members.map (fun m => m.name)).Sublist
              (e.members.map (fun m => m.name)) := by
            rw [hfilter]
            exact List.Sublist.map _ (List.filter_sublist _)
          refine ⟨hsub.nodup hnames, List.nodup_singleton _, ?_⟩
          intro a ha hb
          simp only [List.map_cons, List.map_nil, List.mem_singleton] at hb
          subst hb
          obtain ⟨m, hm, hmn⟩ := List.mem_map.mp ha
          exact hok m (he1sub m hm) hmn
      have he2lead : e2.leader = e.leader := by
        rw [he2, processMemberAdded_leader, he1, processMemberRemoved_leader_eq]
      by_cases hcnd : (!e2.members.isEmpty
          && (e.GetMemberDataByName rn).charId == e2.leader.charId) = true
      · have hstep : e.SwapMember an ai rn = (e2.ChooseNewLeader).1 := by
          unfold Expedition.SwapMember
          simp only [hq0', Bool.false_eq_true, if_false, hg', ← he1, ← he2, hcnd, if_true]
        rw [hstep]
        constructor
        · unfold rosterNamesNodup
          rw [chooseNewLeader_members]
          exact hnames2
        · apply chooseNewLeader_leaderOnRoster
          intro hnil
          have := Bool.and_elim_left hcnd
          rw [hnil] at this
          simp at this
      · have hcnd' : (!e2.members.isEmpty
            && (e.GetMemberDataByName rn).charId == e2.leader.charId) = false :=
          eq_false_of_ne_true hcnd
        have hstep : e.SwapMember an ai rn = e2 := by
          unfold Expedition.SwapMember
          simp only [hq0', Bool.false_eq_true, if_false, hg', ← he1, ← he2, hcnd', if_false]
        rw [hstep] at hne ⊢
        refine ⟨hnames2, ?_⟩
        have hnemp : e2.members.isEmpty = false := List.isEmpty_eq_false.mpr hne
        have hcne : ((e.GetMemberDataByName rn).charId == e2.leader.charId) = false := by
          cases hx : (e.GetMemberDataByName rn).charId == e2.leader.charId
          · rfl
          · rw [hnemp, hx] at hcnd'
            simp at hcnd'
        obtain ⟨L, hL, hLc⟩ := hlead
        have hLname : L.name ≠ (e.GetMemberDataByName rn).name := by
          intro heq
          have hLm : L = e.GetMemberDataByName rn :=
            List.inj_on_of_nodup_map hnames hL hmmem heq
          rw [← hLm, hLc, he2lead] at hcne
          simp at hcne
        have hLe1 : L ∈ e1.members := by
          rw [hfilter]
          exact List.mem_filter.mpr ⟨hL, bne_iff_ne.mpr hLname⟩
        have hLe2 : L ∈ e2.members := by
          rw [he2, processMemberAdded_members]
          split
          · exact hLe1
          · exact List.mem_append_left _ hLe1
        exact ⟨L, hLe2, by rw [he2lead]; exact hLc⟩

theorem makeLeader_inv (e : Expedition) (q : String)
    (hnames : rosterNamesNodup e) (hlead : leaderOnRoster e) :
    rosterNamesNodup (e.DzMakeLeaderLocal q) ∧ leaderOnRoster (e.DzMakeLeaderLocal q) := by
  by_cases hd0 : ((e.GetMemberDataByName q).charId == 0) = true
  · have : e.DzMakeLeaderLocal q = e := by unfold Expedition.DzMakeLeaderLocal; simp [hd0]
    rw [this]
    exact ⟨hnames, hlead⟩
  · have hd0' : ((e.GetMemberDataByName q).charId == 0) = false := eq_false_of_ne_true hd0
    have hm0 : (e.GetMemberDataByName q).charId ≠ 0 := by
      intro h0
      rw [h0] at hd0'
      simp at hd0'
    have hmmem := getMemberData_mem e q hm0
    have hstep : e.DzMakeLeaderLocal q =
        e.SetNewLeader (e.GetMemberDataByName q).charId (e.GetMemberDataByName q).name := by
      unfold Expedition.DzMakeLeaderLocal
      simp [hd0']
    rw [hstep]
    exact ⟨hnames, ⟨e.GetMemberDataByName q, hmmem, rfl⟩⟩

theorem localStep_inv (e : Expedition) (op : ExpOp) (hl : op.isLocal = true)
    (hok : LocalOpOk e op) (hnames : rosterNamesNodup e) (hlead : leaderOnRoster e)
    (hne : (op.apply e).members ≠ []) :
    rosterNamesNodup (op.apply e) ∧ leaderOnRoster (op.apply e) := by
  cases op with
  | addMember n i => exact addMember_inv e n i hnames hlead hok
  | removeMember q => exact removeMember_inv e q hnames hlead hne
  | swapMember an ai rn => exact swapMember_inv e an ai rn hnames hlead hok hne
  | makeLeader q => exact makeLeader_inv e q hnames hlead
  | procMemberAdded n i => simp [ExpOp.isLocal] at hl
  | procMemberRemoved n i => simp [ExpOp.isLocal] at hl
  | procLeaderChanged i n => simp [ExpOp.isLocal] at hl

/-- C4 amended main theorem body (shared induction). -/
theorem localTrace_inv (ops : List ExpOp) (e : Expedition)
    (hnames : rosterNamesNodup e) (hlead : leaderOnRoster e)
    (htrace : LocalTraceOk e ops) :
    rosterNamesNodup (applyExpOps ops e) ∧ leaderOnRoster (applyExpOps ops e) := by
  induction ops generalizing e with
  | nil => exact ⟨hnames, hlead⟩
  | cons op ops ih =>
    obtain ⟨hl, hok, hne, htail⟩ := htrace
    have hstep := localStep_inv e op hl hok hnames hlead hne
    exact ih (op.apply e) hstep.1 hstep.2 htail

/-- Claim C4 (amended): starting from an expedition with
duplicate-free roster names and the leader on the roster, any sequence
of LOCAL member add, remove, swap and leadership-transfer operations
whose adds use fresh names and which never empties the roster keeps
the leader's character id on the roster. Replicated membership/leader
messages are excluded: they can break the invariant (see the
counterexample). -/
theorem c4_leader_invariant_amended (e : Expedition) (ops : List ExpOp)
    (hnames : rosterNamesNodup e) (hlead : leaderOnRoster e)
    (htrace : LocalTraceOk e ops) :
    leaderOnRoster (applyExpOps ops e) :=
  (localTrace_inv ops e hnames hlead htrace).2

/-- Claim C4 counterexample: a replicated member-removed message for
the leader removes the member without re-electing, leaving a non-empty
roster ([Bob], id 2) whose leader id 1 is no longer a roster member
id. -/
theorem c4_leader_invariant_counterexample :
    ((handleWorldMessage nullWorldEnv ⟨1, 0, [(7, fullExpedition)]⟩
        (ServerMsg.memberChange 7 2 0 1 "Alice" true)).findCached 7).map
        (fun e => (e.members.map (fun m => m.charId), e.leader.charId)) = some ([2], 1) ∧
      ¬((1 : Nat) ∈ [2]) := by
  decide

/-- Claim C4 witness: a concrete local remove-then-add trace preserves
the leader invariant. -/
theorem c4_leader_invariant_witness :
    rosterNamesNodup trioExpedition ∧ leaderOnRoster trioExpedition ∧
      LocalTraceOk trioExpedition [ExpOp.removeMember "Alice", ExpOp.addMember "Dave" 4] ∧
      leaderOnRoster (applyExpOps [ExpOp.removeMember "Alice", ExpOp.addMember "Dave" 4]
        trioExpedition) :=
  ⟨by decide, by decide, by decide,
    c4_leader_invariant_amended trioExpedition
      [ExpOp.removeMember "Alice", ExpOp.addMember "Dave" 4] (by decide) (by decide)
      (by decide)⟩

theorem addInternalMember_ids (e : Expedition) (n : String) (i : Nat)
    (s : ExpeditionMemberStatus) (c : Bool) (h : rosterIdsNodup e) :
    rosterIdsNodup (e.AddInternalMember n i s c) := by
  by_cases hc : (c && !(e.members.any fun m => m.charId == i)) = true
  · have hany : (e.members.any fun m => m.charId == i) = false := by
      cases hx : e.members.any fun m => m.charId == i
      · rfl
      · rw [hx] at hc; simp at hc
    have hstep : e.AddInternalMember n i s c =
        { e with
          members := e.members ++ [⟨i, n, s⟩]
          memberIdHistory :=
            if e.memberIdHistory.contains i then e.memberIdHistory
            else e.memberIdHistory ++ [i] } := by
      unfold Expedition.AddInternalMember
      simp [hc]
    rw [hstep]
    unfold rosterIdsNodup at h ⊢
    rw [List.map_append, List.nodup_append]
    refine ⟨h, List.nodup_singleton _, ?_⟩
    intro a ha hb
    simp only [List.map_cons, List.map_nil, List.mem_singleton] at hb
    obtain ⟨m, hm, hmi⟩ := List.mem_map.mp ha
    have hmi2 : m.charId = a := hmi
    have hmi3 : m.charId = i := hb ▸ hmi2
    have hx : (e.members.any fun m => m.charId == i) = true :=
      List.any_eq_true.mpr ⟨m, hm, by show (m.charId == i) = true; simp [hmi3]⟩
    rw [hany] at hx
    simp at hx
  · have hc' : (c && !(e.members.any fun m => m.charId == i)) = false := eq_false_of_ne_true hc
    have hstep : (e.AddInternalMember n i s c).members = e.members := by
      unfold Expedition.AddInternalMember
      simp [hc']
    unfold rosterIdsNodup at h ⊢
    rw [hstep]
    exact h

theorem processMemberAdded_ids (e : Expedition) (n : String) (i : Nat)
    (h : rosterIdsNodup e) : rosterIdsNodup (e.ProcessMemberAdded n i) :=
  addInternalMember_ids e n i ExpeditionMemberStatus.online true h

theorem processMemberRemoved_ids (e : Expedition) (n : String) (i : Nat)
    (h : rosterIdsNodup e) : rosterIdsNodup (e.ProcessMemberRemoved n i) := by
  unfold Expedition.ProcessMemberRemoved
  split
  · exact h
  · unfold rosterIdsNodup at h ⊢
    have hsub : ((e.members.filter (fun m => m.name != n)).map (fun m => m.charId)).Sublist
        (e.members.map (fun m => m.charId)) :=
      List.Sublist.map _ (List.filter_sublist _)
    exact hsub.nodup h

theorem chooseNewLeader_ids (e : Expedition) (h : rosterIdsNodup e) :
    rosterIdsNodup (e.ChooseNewLeader).1 := by
  unfold rosterIdsNodup at h ⊢
  rw [chooseNewLeader_members]
  exact h

theorem setNewLeader_ids (e : Expedition) (i : Nat) (n : String) (h : rosterIdsNodup e) :
    rosterIdsNodup (e.SetNewLeader i n) := h

theorem updateMemberStatus_ids (e : Expedition) (i : Nat) (s : ExpeditionMemberStatus)
    (h : rosterIdsNodup e) : rosterIdsNodup (e.UpdateMemberStatus i s) := by
  by_cases hg : ((e.GetMemberDataById i).charId == 0
      || (e.GetMemberDataById i).name == "") = true
  · have hstep : e.UpdateMemberStatus i s = e := by
      unfold Expedition.UpdateMemberStatus
      simp [hg]
    rw [hstep]
    exact h
  · have hg' := eq_false_of_ne_true hg
    have hstep : e.UpdateMemberStatus i s =
        { e with members :=
            e.members.map (fun m => if m.charId == i then { m with status := s } else m) } := by
      unfold Expedition.UpdateMemberStatus
      simp only [hg', Bool.false_eq_true, if_false]
    rw [hstep]
    unfold rosterIdsNodup at h ⊢
    have hmap : ((e.members.map
        (fun m => if m.charId == i then { m with status := s } else m)).map
          (fun m => m.charId)) = e.members.map (fun m => m.charId) := by
      rw [List.map_map]
      apply List.map_congr_left
      intro m _
      show (if (m.charId == i) = true then ({ m with status := s } : ExpeditionMember)
        else m).charId = m.charId
      by_cases hmi : (m.charId == i) = true
      · rw [if_pos hmi]
      · rw [if_neg hmi]
    rw [hmap]
    exact h

theorem removeMember_ids (e : Expedition) (q : String) (h : rosterIdsNodup e) :
    rosterIdsNodup (e.RemoveMember q).1 := by
  by_cases hg : ((e.GetMemberDataByName q).charId == 0
      || (e.GetMemberDataByName q).name == "") = true
  · have hstep : e.RemoveMember q = (e, false) := by
      unfold Expedition.RemoveMember
      simp [hg]
    rw [hstep]
    exact h
  · have hg' := eq_false_of_ne_true hg
    by_cases hc : ((e.GetMemberDataByName q).charId == e.leader.charId) = true
    · have hstep : e.RemoveMember q =
          (((e.ProcessMemberRemoved (e.GetMemberDataByName q).name
              (e.GetMemberDataByName q).charId).ChooseNewLeader).1, true) := by
        unfold Expedition.RemoveMember
        simp only [hg', Bool.false_eq_true, if_false, processMemberRemoved_leader_eq, hc,
          if_true]
      rw [hstep]
      exact chooseNewLeader_ids _ (processMemberRemoved_ids e (e.GetMemberDataByName q).name
        (e.GetMemberDataByName q).charId h)
    · have hc' := eq_false_of_ne_true hc
      have hstep : e.RemoveMember q =
          ((e.ProcessMemberRemoved (e.GetMemberDataByName q).name
              (e.GetMemberDataByName q).charId), true) := by
        unfold Expedition.RemoveMember
        simp only [hg', Bool.false_eq_true, if_false, processMemberRemoved_leader_eq, hc',
          if_false]
      rw [hstep]
      show rosterIdsNodup (e.ProcessMemberRemoved (e.GetMemberDataByName q).name
        (e.GetMemberDataByName q).charId)
      exact processMemberRemoved_ids e (e.GetMemberDataByName q).name
        (e.GetMemberDataByName q).charId h

theorem swapMember_ids (e : Expedition) (an : String) (ai : Nat) (rn : String)
    (h : rosterIdsNodup e) : rosterIdsNodup (e.SwapMember an ai rn) := by
  by_cases hq0 : (rn == "") = true
  · have hstep : e.SwapMember an ai rn = e := by
      unfold Expedition.SwapMember
      simp [hq0]
    rw [hstep]
    exact h
  · have hq0' := eq_false_of_ne_true hq0
    by_cases hg : ((e.GetMemberDataByName rn).charId == 0
        || (e.GetMemberDataByName rn).name == "") = true
    · have hstep : e.SwapMember an ai rn = e := by
        unfold Expedition.SwapMember
        simp [hq0', hg]
      rw [hstep]
      exact h
    · have hg' := eq_false_of_ne_true hg
      have hids2 : rosterIdsNodup ((e.ProcessMemberRemoved (e.GetMemberDataByName rn).name
          (e.GetMemberDataByName rn).charId).ProcessMemberAdded an ai) :=
        processMemberAdded_ids _ an ai (processMemberRemoved_ids e
          (e.GetMemberDataByName rn).name (e.GetMemberDataByName rn).charId h)
      by_cases hcnd : (!((e.ProcessMemberRemoved (e.GetMemberDataByName rn).name
            (e.GetMemberDataByName rn).charId).ProcessMemberAdded an ai).members.isEmpty
          && (e.GetMemberDataByName rn).charId ==
            ((e.ProcessMemberRemoved (e.GetMemberDataByName rn).name
              (e.GetMemberDataByName rn).charId).ProcessMemberAdded an ai).leader.charId)
          = true
      · have hstep : e.SwapMember an ai rn =
            (((e.ProcessMemberRemoved (e.GetMemberDataByName rn).name
                (e.GetMemberDataByName rn).charId).ProcessMemberAdded an
                  ai).ChooseNewLeader).1 := by
          unfold Expedition.SwapMember
          simp only [hq0', Bool.false_eq_true, if_false, hg', hcnd, if_true]
        rw [hstep]
        exact chooseNewLeader_ids _ hids2
      · have hcnd' := eq_false_of_ne_true hcnd
        have hstep : e.SwapMember an ai rn =
            (e.ProcessMemberRemoved (e.GetMemberDataByName rn).name
              (e.GetMemberDataByName rn).charId).ProcessMemberAdded an ai := by
          unfold Expedition.SwapMember
          simp only [hq0', Bool.false_eq_true, if_false, hg', hcnd', if_false]
        rw [hstep]
        exact hids2

theorem addMember_ids (e : Expedition) (n : String) (i : Nat) (h : rosterIdsNodup e) :
    rosterIdsNodup (e.AddMember n i).1 := by
  by_cases hh : e.HasMemberId i = true
  · have hstep : e.AddMember n i = (e, false) := by
      unfold Expedition.AddMember
      simp [hh]
    rw [hstep]
    exact h
  · have hh' := eq_false_of_ne_true hh
    have hstep : (e.AddMember n i).1 = e.ProcessMemberAdded n i := by
      unfold Expedition.AddMember
      simp [hh']
    rw [hstep]
    exact processMemberAdded_ids e n i h

theorem makeLeaderLocal_ids (e : Expedition) (q : String) (h : rosterIdsNodup e) :
    rosterIdsNodup (e.DzMakeLeaderLocal q) := by
  by_cases hd0 : ((e.GetMemberDataByName q).charId == 0) = true
  · have hstep : e.DzMakeLeaderLocal q = e := by
      unfold Expedition.DzMakeLeaderLocal
      simp [hd0]
    rw [hstep]
    exact h
  · have hd0' := eq_false_of_ne_true hd0
    have hstep : e.DzMakeLeaderLocal q =
        e.SetNewLeader (e.GetMemberDataByName q).charId (e.GetMemberDataByName q).name := by
      unfold Expedition.DzMakeLeaderLocal
      simp [hd0']
    rw [hstep]
    exact h

theorem expOp_ids (op : ExpOp) (e : Expedition) (h : rosterIdsNodup e) :
    rosterIdsNodup (op.apply e) := by
  cases op with
  | addMember n i => exact addMember_ids e n i h
  | removeMember q => exact removeMember_ids e q h
  | swapMember an ai rn => exact swapMember_ids e an ai rn h
  | makeLeader q => exact makeLeaderLocal_ids e q h
  | procMemberAdded n i => exact processMemberAdded_ids e n i h
  | procMemberRemoved n i => exact processMemberRemoved_ids e n i h
  | procLeaderChanged i n => exact h

theorem cacheSet_mem (c : List (Nat × Expedition)) (id : Nat) (v : Expedition)
    (p : Nat × Expedition) (hp : p ∈ cacheSet c id v) : p ∈ c ∨ p = (id, v) := by
  induction c with
  | nil => simp [cacheSet] at hp
  | cons q t ih =>
    unfold cacheSet at hp
    by_cases hq : (q.1 == id) = true
    · rw [if_pos hq] at hp
      rcases List.mem_cons.mp hp with hh | ht
      · exact Or.inr hh
      · exact Or.inl (List.mem_cons_of_mem q ht)
    · rw [if_neg hq] at hp
      rcases List.mem_cons.mp hp with hh | ht
      · exact Or.inl (hh ▸ List.mem_cons_self q t)
      · rcases ih ht with h1 | h2
        · exact Or.inl (List.mem_cons_of_mem q h1)
        · exact Or.inr h2

theorem cacheEmplace_mem (c : List (Nat × Expedition)) (id : Nat) (v : Expedition)
    (p : Nat × Expedition) (hp : p ∈ cacheEmplace c id v) : p ∈ c ∨ p = (id, v) := by
  unfold cacheEmplace at hp
  split at hp
  · exact Or.inl hp
  · rcases List.mem_append.mp hp with h1 | h2
    · exact Or.inl h1
    · simp only [List.mem_singleton] at h2
      exact Or.inr h2

theorem findCached_mem (z : ZoneState) (id : Nat) (e : Expedition)
    (h : z.findCached id = some e) : ∃ p ∈ z.cache, p.2 = e := by
  unfold ZoneState.findCached at h
  split at h
  · simp at h
  · obtain ⟨p, hp, hpe⟩ := Option.map_eq_some'.mp h
    exact ⟨p, List.mem_of_find?_eq_some hp, hpe⟩

theorem cacheSet_preserve (z : ZoneState) (id : Nat) (v : Expedition)
    (h : CacheRosterUnique z) (hv : rosterIdsNodup v) :
    CacheRosterUnique { z with cache := cacheSet z.cache id v } := by
  intro p hp
  rcases cacheSet_mem z.cache id v p hp with h1 | h2
  · exact h p h1
  · rw [h2]
    exact hv

theorem applyToCached_preserve (z : ZoneState) (id : Nat) (f : Expedition → Expedition)
    (hf : ∀ e, rosterIdsNodup e → rosterIdsNodup (f e)) (h : CacheRosterUnique z) :
    CacheRosterUnique (z.applyToCached id f) := by
  unfold ZoneState.applyToCached
  cases hfind : z.findCached id with
  | none => exact h
  | some e =>
    obtain ⟨q, hq, hqe⟩ := findCached_mem z id e hfind
    have he : rosterIdsNodup e := hqe ▸ h q hq
    exact cacheSet_preserve z id (f e) h (hf e he)

theorem eraseCached_preserve (z : ZoneState) (id : Nat) (h : CacheRosterUnique z) :
    CacheRosterUnique (z.eraseCached id) := by
  intro p hp
  exact h p (List.mem_of_mem_filter hp)

theorem cacheEmplace_preserve (z : ZoneState) (id : Nat) (v : Expedition)
    (h : CacheRosterUnique z) (hv : rosterIdsNodup v) :
    CacheRosterUnique { z with cache := cacheEmplace z.cache id v } := by
  intro p hp
  rcases cacheEmplace_mem z.cache id v p hp with h1 | h2
  · exact h p h1
  · rw [h2]
    exact hv

theorem rowExpedition_ids (row : DbRow) : rosterIdsNodup (rowExpedition row) := by
  unfold rosterIdsNodup rowExpedition
  simp

theorem processLockoutUpdate_ids (e : Expedition) (l : ExpeditionLockoutTimer) (r : Bool)
    (h : rosterIdsNodup e) : rosterIdsNodup (e.ProcessLockoutUpdate l r) := by
  unfold Expedition.ProcessLockoutUpdate
  split <;> exact h

theorem cacheExpeditionsRows_preserve (rows : List DbRow) (z : ZoneState) (last_id : Nat)
    (h : CacheRosterUnique z) : CacheRosterUnique (cacheExpeditionsRows z last_id rows) := by
  induction rows generalizing z last_id with
  | nil => exact h
  | cons row rest ih =>
    unfold cacheExpeditionsRows
    apply ih
    apply applyToCached_preserve
    · intro e he
      exact addInternalMember_ids e row.memberName row.memberId ExpeditionMemberStatus.offline
        row.isCurrentMember he
    · split
      · exact cacheEmplace_preserve z row.id (rowExpedition row) h (rowExpedition_ids row)
      · exact h

theorem cacheExpeditions_preserve (env : WorldEnv) (z : ZoneState) (rows : List DbRow)
    (h : CacheRosterUnique z) : CacheRosterUnique (cacheExpeditions env z rows) := by
  unfold cacheExpeditions
  have hrows := cacheExpeditionsRows_preserve rows z 0 h
  generalize cacheExpeditionsRows z 0 rows = z1 at hrows ⊢
  induction groupFirstIds 0 rows generalizing z1 with
  | nil => exact hrows
  | cons id ids ih =>
    simp only [List.foldl_cons]
    apply ih
    apply applyToCached_preserve
    · intro e he
      split
      · split <;> exact he
      · split <;> exact he
    · exact hrows

theorem handleWorldMessage_preserve (env : WorldEnv) (z : ZoneState) (msg : ServerMsg)
    (h : CacheRosterUnique z) : CacheRosterUnique (handleWorldMessage env z msg) := by
  cases msg with
  | create expedition_id sz si =>
    simp only [handleWorldMessage]
    split
    · exact cacheExpeditions_preserve env z _ h
    · exact h
  | deleted expedition_id sz si =>
    simp only [handleWorldMessage]
    split
    · exact eraseCached_preserve z expedition_id h
    · exact h
  | membersRemoved expedition_id sz si =>
    simp only [handleWorldMessage]
    split
    · refine applyToCached_preserve z expedition_id _ ?_ h
      intro e _
      unfold rosterIdsNodup Expedition.RemoveAllMembers
      simp
    · exact h
  | leaderChanged expedition_id sz si char_id char_name =>
    simp only [handleWorldMessage]
    split
    · exact applyToCached_preserve z expedition_id _ (fun e he => he) h
    · exact h
  | lockout expedition_id event_name expire_time duration remove sz si =>
    simp only [handleWorldMessage]
    split
    · refine applyToCached_preserve z expedition_id _ ?_ h
      intro e he
      exact processLockoutUpdate_ids e _ remove he
    · exact h
  | memberChange expedition_id sz si char_id char_name removed =>
    simp only [handleWorldMessage]
    split
    · refine applyToCached_preserve z expedition_id _ ?_ h
      intro e he
      split
      · exact processMemberRemoved_ids e char_name char_id he
      · exact processMemberAdded_ids e char_name char_id he
    · exact h
  | memberSwap expedition_id sz si add_char_id add_char_name remove_char_id
      remove_char_name =>
    simp only [handleWorldMessage]
    split
    · refine applyToCached_preserve z expedition_id _ ?_ h
      intro e he
      exact processMemberAdded_ids _ add_char_name add_char_id
        (processMemberRemoved_ids e remove_char_name remove_char_id he)
    · exact h
  | memberStatus expedition_id sz si char_id status =>
    simp only [handleWorldMessage]
    split
    · refine applyToCached_preserve z expedition_id _ ?_ h
      intro e he
      exact updateMemberStatus_ids e char_id status he
    · exact h
  | lockState expedition_id sz si enabled =>
    simp only [handleWorldMessage]
    split
    · exact applyToCached_preserve z expedition_id _ (fun e he => he) h
    · exact h
  | replayOnJoin expedition_id sz si enabled =>
    simp only [handleWorldMessage]
    split
    · exact applyToCached_preserve z expedition_id _ (fun e he => he) h
    · exact h
  | getOnlineMembers sz si entries =>
    simp only [handleWorldMessage]
    induction entries generalizing z with
    | nil => exact h
    | cons entry rest ih =>
      simp only [List.foldl_cons]
      apply ih
      refine applyToCached_preserve z entry.expeditionId _ ?_ h
      intro e he
      exact updateMemberStatus_ids e entry.characterId _ he
  | dzAddPlayer expedition_id is_char_online requester_name target_name remove_name =>
    exact h
  | dzMakeLeader expedition_id is_char_online requester_name target_name =>
    simp only [handleWorldMessage]
    cases hfind : z.findCached expedition_id with
    | none => exact h
    | some e =>
      cases hcli : env.clientByName target_name with
      | none => exact h
      | some cli =>
        obtain ⟨q, hq, hqe⟩ := findCached_mem z expedition_id e hfind
        have he : rosterIdsNodup e := hqe ▸ h q hq
        exact cacheSet_preserve z expedition_id _ h (setNewLeader_ids e cli.1 cli.2 he)
  | dzCompass owner_id a b sz si zone_id x y zc heading =>
    simp only [handleWorldMessage]
    split
    · exact applyToCached_preserve z owner_id _ (fun e he => he) h
    · exact h
  | dzSafeReturn owner_id a b sz si zone_id x y zc heading =>
    simp only [handleWorldMessage]
    split
    · exact applyToCached_preserve z owner_id _ (fun e he => he) h
    · exact h
  | dzZoneIn owner_id a b sz si zone_id x y zc heading =>
    simp only [handleWorldMessage]
    split
    · exact applyToCached_preserve z owner_id _ (fun e he => he) h
    · exact h
  | removeCharLockouts character_name expedition_name event_name =>
    exact h
  | dzDuration expedition_id new_duration_seconds =>
    exact applyToCached_preserve z expedition_id _ (fun e he => he) h

theorem tryCreate_preserve (ctx : CreateContext) (z : ZoneState)
    (h : CacheRosterUnique z)
    (hreq : ((ctx.request.members.map (fun m => m.charId)).Nodup)) :
    CacheRosterUnique (Expedition.TryCreate ctx z).2 := by
  unfold Expedition.TryCreate
  split
  · exact h
  · split
    · exact h
    · split
      · exact h
      · split
        · exact h
        · exact cacheEmplace_preserve z ctx.insertedId (createdExpedition ctx) h hreq

theorem zoneOp_preserve (env : WorldEnv) (z : ZoneState) (op : ZoneOp)
    (h : CacheRosterUnique z) (hok : ZoneOpOk op) :
    CacheRosterUnique (applyZoneOp env z op) := by
  cases op with
  | expOp expedition_id op =>
    exact applyToCached_preserve z expedition_id _ (fun e he => expOp_ids op e he) h
  | world msg => exact handleWorldMessage_preserve env z msg h
  | bulkLoad rows =>
    apply cacheExpeditions_preserve
    intro p hp
    simp at hp
  | create ctx => exact tryCreate_preserve ctx z h hok

/-- Claim C9: cache-wide roster uniqueness - if every cached roster is
duplicate-free by character id and every creation request's initial
roster is duplicate-free (the validator's precondition), then any
sequence of roster operations, replicated messages, bulk cache loads
and creations preserves that no two roster entries of any cached
expedition share a character id. -/
theorem c9_roster_unique (env : WorldEnv) (z : ZoneState) (ops : List ZoneOp)
    (h : CacheRosterUnique z) (hok : ∀ op ∈ ops, ZoneOpOk op) :
    CacheRosterUnique (applyZoneOps env ops z) := by
  induction ops generalizing z with
  | nil => exact h
  | cons op ops ih =>
    simp only [applyZoneOps, List.foldl_cons]
    exact ih (applyZoneOp env z op)
      (zoneOp_preserve env z op h (hok op (List.mem_cons_self op ops)))
      (fun o ho => hok o (List.mem_cons_of_mem op ho))

/-- Claim C9 witness: a concrete run of creation, local add, replicated
add, swap and bulk load keeps every cached roster duplicate-free. -/
theorem c9_roster_unique_witness :
    CacheRosterUnique ⟨1, 0, []⟩ ∧ (∀ op ∈ witnessZoneOps, ZoneOpOk op) ∧
      CacheRosterUnique (applyZoneOps nullWorldEnv witnessZoneOps ⟨1, 0, []⟩) :=
  ⟨by decide, by decide,
    c9_roster_unique nullWorldEnv ⟨1, 0, []⟩ witnessZoneOps (by decide) (by decide)⟩
